import Mathlib

/-!
Verification of the OpenSea stream event-schema codec (`schema.rs`) and the
subscription-side collection identifier codec (`protocol.rs`).

JSON documents are modelled by an inductive `Json` value; number tokens are
kept as their textual form, as they appear in the document.  Machine integers
(20-byte addresses, 32-byte hashes, 256-bit scaled integers, `u64` counters)
are modelled as `Nat` with explicit bounds.  64-bit floats are modelled as
exact rationals (`Rat`); timestamps and URLs are modelled as validated
strings.  Fallible decoding returns `Option`.
-/

namespace OpenseaStream

/-- A JSON value.  `num` carries the number token as written in the document
(serde keeps the token and converts it on demand), `obj` carries the field
list in document order. -/
inductive Json where
  | null : Json
  | bool : Bool → Json
  | num : String → Json
  | str : String → Json
  | arr : List Json → Json
  | obj : List (String × Json) → Json

mutual

/-- Syntactic equality of JSON values (field order significant). -/
def Json.beq : Json → Json → Bool
  | .null, .null => true
  | .bool a, .bool b => a == b
  | .num a, .num b => a == b
  | .str a, .str b => a == b
  | .arr xs, .arr ys => Json.beqList xs ys
  | .obj xs, .obj ys => Json.beqFields xs ys
  | _, _ => false

/-- Pointwise `Json.beq` on lists. -/
def Json.beqList : List Json → List Json → Bool
  | [], [] => true
  | x :: xs, y :: ys => Json.beq x y && Json.beqList xs ys
  | _, _ => false

/-- Pointwise `Json.beq` on field lists, keys compared as strings. -/
def Json.beqFields : List (String × Json) → List (String × Json) → Bool
  | [], [] => true
  | (k, v) :: xs, (k2, v2) :: ys =>
    k == k2 && Json.beq v v2 && Json.beqFields xs ys
  | _, _ => false

end

/-! ## Digit strings

`renderBase b w n` renders `n` in base `b`, left-padded with zeros to at
least `w` digits (lowercase hex for `b = 16`); `parseBase b l` parses a
nonempty all-digit character list.  These model the decimal and hex
conversions of the `uint`/`fixed-hash` crates used by the source. -/

/-- The value of a character as a base-`b` digit (hex digits accepted in
either case), if it is one. -/
def digVal (b : Nat) (c : Char) : Option Nat :=
  let v : Option Nat :=
    if '0' ≤ c ∧ c ≤ '9' then some (c.toNat - '0'.toNat)
    else if 'a' ≤ c ∧ c ≤ 'f' then some (c.toNat - 'a'.toNat + 10)
    else if 'A' ≤ c ∧ c ≤ 'F' then some (c.toNat - 'A'.toNat + 10)
    else none
  match v with
  | some d => if d < b then some d else none
  | none => none

/-- The character of the digit `d` (lowercase for `10 ≤ d < 16`). -/
def digitChar (d : Nat) : Char :=
  if d < 10 then Char.ofNat ('0'.toNat + d) else Char.ofNat ('a'.toNat + d - 10)

theorem digVal_digitChar {b d : Nat} (hb : b = 10 ∨ b = 16) (hd : d < b) :
    digVal b (digitChar d) = some d := by
  rcases hb with h | h <;> subst h <;> interval_cases d <;> rfl

theorem digitChar_ne_of_lt {d : Nat} (hd : d < 16) (c : Char)
    (hc : digVal 16 c = none) : digitChar d ≠ c := by
  intro h
  rw [← h, digVal_digitChar (Or.inr rfl) hd] at hc
  cases hc

/-- Base-`b` digits by explicit division, structurally recursive on a
fuel counter so that it evaluates by kernel reduction. -/
def digitsRec (b : Nat) : Nat → Nat → List Nat
  | 0, _ => []
  | fuel + 1, n => if n = 0 then [] else n % b :: digitsRec b fuel (n / b)

/-- Digits of `n` in base `b`, little-endian, with 600 division steps:
enough for every value the codec handles (all are below `10 ^ 600`). -/
def natDigitsF (b n : Nat) : List Nat :=
  digitsRec b 600 n

theorem digitsRec_eq (b : Nat) (hb : 1 < b) :
    ∀ fuel n, n < b ^ fuel → digitsRec b fuel n = Nat.digits b n := by
  intro fuel
  induction fuel with
  | zero =>
    intro n h
    rw [pow_zero] at h
    interval_cases n
    simp [digitsRec]
  | succ fuel ih =>
    intro n h
    by_cases hn : n = 0
    · subst hn; simp [digitsRec]
    · rw [digitsRec, if_neg hn,
        Nat.digits_def' hb (Nat.pos_of_ne_zero hn),
        ih (n / b) (by
          rw [Nat.div_lt_iff_lt_mul (by omega)]
          calc n < b ^ (fuel + 1) := h
            _ = b ^ fuel * b := by ring)]

theorem natDigitsF_eq {b : Nat} (hb : 1 < b) {n : Nat}
    (hn : n < b ^ 600) : natDigitsF b n = Nat.digits b n :=
  digitsRec_eq b hb 600 n hn

theorem digitsRec_lt (b : Nat) (hb : 1 < b) :
    ∀ fuel n, ∀ d ∈ digitsRec b fuel n, d < b := by
  intro fuel
  induction fuel with
  | zero => intro n d hd; cases hd
  | succ fuel ih =>
    intro n d hd
    by_cases hn : n = 0
    · subst hn; simp [digitsRec] at hd
    · rw [digitsRec, if_neg hn] at hd
      rcases List.mem_cons.mp hd with rfl | hd
      · exact Nat.mod_lt n (by omega)
      · exact ih (n / b) d hd

/-- Digits of `n` in base `b` (little-endian), zero-padded to length at
least `w`. -/
def digitsPadded (b w n : Nat) : List Nat :=
  let ds := natDigitsF b n
  ds ++ List.replicate (w - ds.length) 0

/-- Render `n` in base `b` with at least `w` digits. -/
def renderBase (b w n : Nat) : List Char :=
  ((digitsPadded b w n).reverse).map digitChar

/-- The numeric value of a character list read as base-`b` digits
(non-digits count as zero; `parseBase` rejects them first). -/
def valBase (b : Nat) (l : List Char) : Nat :=
  l.foldl (fun a c => a * b + (digVal b c).getD 0) 0

/-- Parse a nonempty, all-digits character list in base `b`. -/
def parseBase (b : Nat) (l : List Char) : Option Nat :=
  if l.isEmpty then none
  else if l.all (fun c => (digVal b c).isSome) then some (valBase b l)
  else none

theorem ofDigits_replicate_zero (b k : Nat) :
    Nat.ofDigits b (List.replicate k 0) = 0 := by
  induction k with
  | zero => simp [Nat.ofDigits]
  | succ k ih => simp [List.replicate_succ, Nat.ofDigits_cons, ih]

theorem ofDigits_digitsPadded (b w n : Nat) (hb : 1 < b)
    (hn : n < b ^ 600) : Nat.ofDigits b (digitsPadded b w n) = n := by
  unfold digitsPadded
  rw [natDigitsF_eq hb hn, Nat.ofDigits_append, ofDigits_replicate_zero,
    Nat.ofDigits_digits]
  simp

theorem digitsPadded_lt (b w n : Nat) (hb : 1 < b) :
    ∀ d ∈ digitsPadded b w n, d < b := by
  intro d hd
  unfold digitsPadded at hd
  rcases List.mem_append.mp hd with h | h
  · exact digitsRec_lt b hb 600 n d h
  · rw [List.eq_of_mem_replicate h]; omega

theorem digitsPadded_length_pos (b w n : Nat) (hw : 0 < w) :
    0 < (digitsPadded b w n).length := by
  unfold digitsPadded
  simp only [List.length_append, List.length_replicate]
  omega

/-- Folding base-`b` accumulation from accumulator `a` over the reversed
digit list recovers `a` shifted past the list plus its value. -/
theorem foldl_reverse_map_digitChar (b : Nat) (hb : b = 10 ∨ b = 16) :
    ∀ (L : List Nat) (a : Nat), (∀ d ∈ L, d < b) →
      ((L.reverse).map digitChar).foldl
          (fun x c => x * b + (digVal b c).getD 0) a
        = a * b ^ L.length + Nat.ofDigits b L := by
  intro L
  induction L with
  | nil => intro a _; simp [Nat.ofDigits]
  | cons d L ih =>
    intro a h
    have hd : d < b := h d (List.mem_cons_self d L)
    have hL : ∀ x ∈ L, x < b := fun x hx => h x (List.mem_cons_of_mem d hx)
    simp only [List.reverse_cons, List.map_append, List.foldl_append,
      List.map_cons, List.map_nil, List.foldl_cons, List.foldl_nil]
    rw [ih a hL, digVal_digitChar hb hd]
    simp only [Option.getD_some, Nat.ofDigits_cons, List.length_cons]
    ring

theorem valBase_render (b w n : Nat) (hb : b = 10 ∨ b = 16)
    (hn : n < b ^ 600) : valBase b (renderBase b w n) = n := by
  have hb' : 1 < b := by rcases hb with h | h <;> omega
  unfold valBase renderBase
  rw [foldl_reverse_map_digitChar b hb _ 0 (digitsPadded_lt b w n hb'),
    ofDigits_digitsPadded b w n hb' hn]
  simp

theorem renderBase_all_digits (b w n : Nat) (hb : b = 10 ∨ b = 16) :
    ∀ c ∈ renderBase b w n, (digVal b c).isSome := by
  have hb' : 1 < b := by rcases hb with h | h <;> omega
  intro c hc
  unfold renderBase at hc
  rcases List.mem_map.mp hc with ⟨d, hd, rfl⟩
  have : d < b := digitsPadded_lt b w n hb' d (List.mem_reverse.mp hd)
  rw [digVal_digitChar hb this]; rfl

theorem renderBase_ne_nil (b w n : Nat) (hw : 0 < w) :
    renderBase b w n ≠ [] := by
  unfold renderBase
  have := digitsPadded_length_pos b w n hw
  intro h
  rw [List.map_eq_nil_iff, List.reverse_eq_nil_iff] at h
  simp [h] at this

theorem parseBase_renderBase (b w n : Nat) (hb : b = 10 ∨ b = 16)
    (hw : 0 < w) (hn : n < b ^ 600) :
    parseBase b (renderBase b w n) = some n := by
  have h1 : (renderBase b w n).isEmpty = false := by
    simp [List.isEmpty_iff, renderBase_ne_nil b w n hw]
  have h2 : ((renderBase b w n).all fun c => (digVal b c).isSome) = true := by
    rw [List.all_eq_true]
    intro c hc
    simpa using renderBase_all_digits b w n hb c hc
  simp [parseBase, h1, h2, valBase_render b w n hb hn]

theorem renderBase_length (b w n : Nat) (hb : 1 < b) (h : n < b ^ w)
    (hw : w ≤ 600) : (renderBase b w n).length = w := by
  have hn : n < b ^ 600 :=
    lt_of_lt_of_le h (Nat.pow_le_pow_right (by omega) hw)
  unfold renderBase digitsPadded
  rw [natDigitsF_eq hb hn]
  simp only [List.length_map, List.length_reverse, List.length_append,
    List.length_replicate]
  have hlen : (Nat.digits b n).length ≤ w := by
    rcases Nat.eq_zero_or_pos n with rfl | hn
    · simp
    · rw [Nat.digits_len b n hb (by omega)]
      have := (Nat.lt_pow_iff_log_lt hb (by omega)).mp h
      omega
  omega

/-! ## Splitting

`breakAt ch l` splits `l` at the first occurrence of `ch`: it returns the
part before it and, when `ch` occurs, the remainder after it.  This models
one step of Rust's `splitn` (used by `NftId`) and the decimal-point split
of float parsing. -/

/-- Split at the first occurrence of `ch`. -/
def breakAt (ch : Char) : List Char → List Char × Option (List Char)
  | [] => ([], none)
  | c :: r =>
    if c = ch then ([], some r)
    else
      let p := breakAt ch r
      (c :: p.1, p.2)

theorem breakAt_not_mem {ch : Char} {l : List Char} (h : ch ∉ l) :
    breakAt ch l = (l, none) := by
  induction l with
  | nil => rfl
  | cons c r ih =>
    have hc : c ≠ ch := fun hc => h (hc ▸ List.mem_cons_self c r)
    have hr : ch ∉ r := fun hr => h (List.mem_cons_of_mem c hr)
    simp [breakAt, hc, ih hr]

theorem breakAt_append {ch : Char} {l1 l2 : List Char} (h : ch ∉ l1) :
    breakAt ch (l1 ++ ch :: l2) = (l1, some l2) := by
  induction l1 with
  | nil => simp [breakAt]
  | cons c r ih =>
    have hc : c ≠ ch := fun hc => h (hc ▸ List.mem_cons_self c r)
    have hr : ch ∉ r := fun hr => h (List.mem_cons_of_mem c hr)
    simp [breakAt, hc, ih hr]

theorem breakAt_eq_some {ch : Char} {l p r : List Char}
    (h : breakAt ch l = (p, some r)) : l = p ++ ch :: r ∧ ch ∉ p := by
  induction l generalizing p with
  | nil => simp [breakAt] at h
  | cons c t ih =>
    by_cases hc : c = ch
    · subst hc
      simp [breakAt] at h
      rcases h with ⟨rfl, rfl⟩
      exact ⟨rfl, List.not_mem_nil c⟩
    · rcases hbt : breakAt ch t with ⟨p1, o⟩
      rw [breakAt, if_neg hc, hbt] at h
      rcases h with ⟨rfl, rfl⟩
      rcases ih hbt with ⟨rfl, hnp⟩
      refine ⟨rfl, ?_⟩
      intro hm
      rcases List.mem_cons.mp hm with h | h
      · exact hc h.symm
      · exact hnp h

theorem breakAt_eq_none {ch : Char} {l p : List Char}
    (h : breakAt ch l = (p, none)) : p = l ∧ ch ∉ l := by
  induction l generalizing p with
  | nil =>
    simp [breakAt] at h
    simp [h]
  | cons c t ih =>
    by_cases hc : c = ch
    · subst hc; simp [breakAt] at h
    · rcases hbt : breakAt ch t with ⟨p1, o⟩
      rw [breakAt, if_neg hc, hbt] at h
      rcases h with ⟨rfl, rfl⟩
      rcases ih hbt with ⟨rfl, hnt⟩
      refine ⟨rfl, ?_⟩
      intro hm
      rcases List.mem_cons.mp hm with h | h
      · exact hc h.symm
      · exact hnt h

/-! ## The data model (`schema.rs`)

Machine scalars are `Nat` with explicit bounds; `DateTime<Utc>` and `Url`
are modelled as their textual forms with validity predicates; `f64` is
modelled as an exact rational. -/

/-- Modelled from the spec: `sent_at` and the other timestamps are
ISO-8601 ("RFC 3339") instants with an offset; the external `chrono`
parser is modelled as a shape check on the textual form, which is kept as
the value. Accepts `YYYY-MM-DDTHH:MM:SS`, an optional fractional-second
part, and a `Z` or `+HH:MM`/`-HH:MM` offset. -/
def tzOk : List Char → Bool
  | ['Z'] => true
  | ['+', a, b, ':', c, d] => [a, b, c, d].all Char.isDigit
  | ['-', a, b, ':', c, d] => [a, b, c, d].all Char.isDigit
  | _ => false

/-- Fractional seconds (optional) followed by the timezone offset. -/
def secTail (l : List Char) : Bool :=
  match l with
  | '.' :: rest =>
    !(rest.takeWhile Char.isDigit).isEmpty
      && tzOk (rest.dropWhile Char.isDigit)
  | rest => tzOk rest

/-- Shape check for an ISO-8601 timestamp with offset (see `tzOk`). -/
def isRfc3339 (s : String) : Bool :=
  match s.data with
  | y1 :: y2 :: y3 :: y4 :: '-' :: m1 :: m2 :: '-' :: d1 :: d2 :: 'T' ::
      h1 :: h2 :: ':' :: mi1 :: mi2 :: ':' :: s1 :: s2 :: rest =>
    ([y1, y2, y3, y4, m1, m2, d1, d2, h1, h2, mi1, mi2, s1, s2].all
      Char.isDigit) && secTail rest
  | _ => false

/-- Modelled from the spec: `permalink` and the metadata URLs are opaque
validated URL strings; the external `url` parser is modelled as a shape
check (`scheme://rest`, both parts nonempty) keeping the text as the
value. -/
def isUrlStr (s : String) : Bool :=
  match breakAt ':' s.data with
  | (sch, some rest) =>
    !sch.isEmpty &&
      (match rest with
       | '/' :: '/' :: r => !r.isEmpty
       | _ => false)
  | _ => false

/-- Network an item is on (`Chain` in `schema.rs`). -/
inductive Chain where
  | Ethereum | Polygon | Klaytn | Solana | Rinkeby | Mumbai | Baobab
deriving DecidableEq

/-- The canonical lowercase wire name (the `Display` impl; `"matic"` for
`Polygon`). -/
def Chain.wireName : Chain → String
  | .Ethereum => "ethereum"
  | .Polygon => "matic"
  | .Klaytn => "klaytn"
  | .Solana => "solana"
  | .Rinkeby => "rinkeby"
  | .Mumbai => "mumbai"
  | .Baobab => "baobab"

/-- The `FromStr` impl: exact match on the seven wire names. -/
def Chain.fromStr (s : String) : Option Chain :=
  if s = "ethereum" then some .Ethereum
  else if s = "matic" then some .Polygon
  else if s = "klaytn" then some .Klaytn
  else if s = "solana" then some .Solana
  else if s = "rinkeby" then some .Rinkeby
  else if s = "mumbai" then some .Mumbai
  else if s = "baobab" then some .Baobab
  else none

/-- Modelled from the spec: the external `fixed-hash` `Address::from_str`
(used for the composite-identifier segment) accepts an optional `0x`
prefix followed by exactly 40 hex digits, case-insensitive. -/
def addressFromStr (s : String) : Option Nat :=
  let l : List Char :=
    match s.data with
    | '0' :: 'x' :: rest => rest
    | l => l
  if l.length = 40 then parseBase 16 l else none

/-- Modelled from the spec: the external `impl-serde` codec for a bare
20-byte address field requires a `0x`-prefixed string of exactly 40 hex
digits, case-insensitive. -/
def addressSerdeHex (s : String) : Option Nat :=
  match s.data with
  | '0' :: 'x' :: rest => if rest.length = 40 then parseBase 16 rest else none
  | _ => none

/-- The canonical textual form of a 20-byte address: `0x` plus 40
lowercase hex digits (the `Debug`/serde rendering of `H160`). -/
def renderAddress (a : Nat) : String :=
  String.mk ('0' :: 'x' :: renderBase 16 40 a)

/-- Modelled from the spec: the external serde codec for a 32-byte hash
(`H256`) requires a `0x`-prefixed string of exactly 64 hex digits. -/
def h256FromJson (j : Json) : Option Nat :=
  match j with
  | .str s =>
    match s.data with
    | '0' :: 'x' :: rest =>
      if rest.length = 64 then parseBase 16 rest else none
    | _ => none
  | _ => none

/-- The canonical textual form of a 32-byte hash. -/
def renderH256 (h : Nat) : Json :=
  .str (String.mk ('0' :: 'x' :: renderBase 16 64 h))

/-- Modelled from the spec: the external `U256::from_dec_str` parse,
"expect a string of ASCII decimal digits (no sign, no leading 0x,
optional leading zeros tolerated); parse as unsigned base-10 into a
256-bit integer; fail if the string is empty, non-numeric, or exceeds
256 bits". -/
def u256FromDecStr (s : String) : Option Nat :=
  match parseBase 10 s.data with
  | some n => if n < 2 ^ 256 then some n else none
  | none => none

/-- The `u256_fromstr_radix_10` deserializer: `deserialize_str` with a
visitor whose only case is `visit_str`, so any non-string JSON value is
rejected. -/
def u256Deserialize (j : Json) : Option Nat :=
  match j with
  | .str s => u256FromDecStr s
  | _ => none

/-- The `u256_fromstr_radix_10` serializer: `collect_str` of the decimal
`Display` form. -/
def u256Serialize (n : Nat) : Json :=
  .str (String.mk (renderBase 10 1 n))

/-- A `u64` field decoded from a JSON number token: all decimal digits,
value below `2 ^ 64`. -/
def u64FromJson (j : Json) : Option Nat :=
  match j with
  | .num t =>
    match parseBase 10 t.data with
    | some n => if n < 2 ^ 64 then some n else none
    | none => none
  | _ => none

/-- A `u64` field encoded as a JSON number token. -/
def u64ToJson (n : Nat) : Json :=
  .num (String.mk (renderBase 10 1 n))

/-! ## 64-bit floats as exact rationals -/

/-- Strip one leading minus sign, reporting whether one was there. -/
def stripNeg : List Char → Bool × List Char
  | [] => (false, [])
  | c :: r => if c = '-' then (true, r) else (false, c :: r)

/-- The unsigned part of float parsing: decimal digits with at most one
dot; `a.b` denotes `a + b / 10 ^ |b|`. -/
def parseMag (l : List Char) : Option Rat :=
  let ip := breakAt '.' l
  match ip.2 with
  | none => (parseBase 10 ip.1).map fun n => (n : Rat)
  | some f => do
    let ni ← parseBase 10 ip.1
    let nf ← parseBase 10 f
    pure ((ni : Rat) + (nf : Rat) / ((10 : Rat) ^ f.length))

/-- Modelled from the spec: Rust float-string parsing, with float values
taken as exact rationals: optional sign, decimal digits, optional
fractional part after one dot. -/
def parseF64 (s : String) : Option Rat :=
  let p := stripNeg s.data
  (parseMag p.2).map fun v => if p.1 then -v else v

/-- The decimal scale of a finite-decimal rational: the first `k ≤ 500`
with `q * 10 ^ k` integral, the integer below `10 ^ 600`.  Every IEEE
double in the range this model covers has one. -/
def findScale (q : Rat) : Option Nat :=
  (List.range 501).find? fun k =>
    (q * 10 ^ k).den == 1 && (q * 10 ^ k).num.natAbs < 10 ^ 600

/-- A rational stands for a (finite) `f64` value only if it has a decimal
scale: this is the model-side invariant every actual `f64` satisfies. -/
def wfF64 (q : Rat) : Bool :=
  (findScale q).isSome

/-- The digits of `n / 10 ^ k`: plain decimal for `k = 0`, otherwise the
digits of `n` (at least `k + 1` of them) with a dot before the last `k`. -/
def renderMag (k n : Nat) : List Char :=
  if k = 0 then renderBase 10 1 n
  else
    let ds := renderBase 10 (k + 1) n
    ds.take (ds.length - k) ++ '.' :: ds.drop (ds.length - k)

/-- Modelled from the spec: Rust's `f64::to_string`, which always prints
a plain (sign, digits, optional dot) decimal form, no exponent. -/
def renderF64 (q : Rat) : String :=
  match findScale q with
  | none => "0"
  | some k =>
    let n : Nat := (q * 10 ^ k).num.natAbs
    String.mk (if q < 0 then '-' :: renderMag k n else renderMag k n)

/-- The `f64_fromstring` deserializer: an untagged string-or-number union,
both normalised through float parsing. -/
def f64FromJson (j : Json) : Option Rat :=
  match j with
  | .str s => parseF64 s
  | .num t => parseF64 t
  | _ => none

/-- The `f64_fromstring` serializer: always the string form. -/
def f64ToJson (q : Rat) : Json :=
  .str (renderF64 q)

/-! ## serde structural helpers

Decoding works over the field list of a JSON object: `jLookup` finds the
first binding of a key (serde's map access; extra fields are ignored by
the derived decoders), `reqField` decodes a required field (missing key
fails, serde's missing-field error) and `decOptVal` mirrors serde's
handling of an `Option` field (absent key and explicit `null` both give
`none`). -/

/-- First binding of `k` in a JSON object's field list.  (serde's
duplicate-field error is not modelled: lookup takes the first
binding.) -/
def jLookup (fs : List (String × Json)) (k : String) : Option Json :=
  match fs with
  | [] => none
  | (k2, v) :: r => if k2 = k then some v else jLookup r k

def asStr : Json → Option String
  | .str s => some s
  | _ => none

def asBool : Json → Option Bool
  | .bool b => some b
  | _ => none

/-- A timestamp field: a string of the shape `isRfc3339` accepts, kept
textually. -/
def dateFromJson (j : Json) : Option String :=
  match j with
  | .str s => if isRfc3339 s then some s else none
  | _ => none

/-- A URL field: a string `isUrlStr` accepts, kept textually. -/
def urlFromJson (j : Json) : Option String :=
  match j with
  | .str s => if isUrlStr s then some s else none
  | _ => none

/-- A required field: the key must be present and its value must decode. -/
def reqField (fs : List (String × Json)) (k : String)
    (d : Json → Option α) : Option α :=
  (jLookup fs k).bind d

/-- serde's `Option<T>` field handling on the looked-up value: absent and
explicit `null` both decode to `none`; any other value must decode as
`T`. -/
def decOptVal (d : Json → Option α) : Option Json → Option (Option α)
  | none => some none
  | some .null => some none
  | some j => (d j).map some

/-- An optional field of a record. -/
def optField (fs : List (String × Json)) (k : String)
    (d : Json → Option α) : Option (Option α) :=
  decOptVal d (jLookup fs k)

/-- Encoding of an `Option` field: `none` is serialized as an explicit
`null` (no `skip_serializing_if` in the source). -/
def encOpt (e : α → Json) : Option α → Json
  | none => .null
  | some a => e a

/-! ## The composite identifier (`NftId`) -/

/-- Identifier of the NFT: chain, 20-byte contract address, 256-bit
token id. -/
structure NftId where
  network : Chain
  address : Nat
  id : Nat
deriving DecidableEq

/-- The `NftId` deserializer: `splitn(3, '/')`, then chain lookup,
address parse, decimal token-id parse on the three parts; missing parts
fail. -/
def NftId.fromWire (s : String) : Option NftId := do
  let b1 := breakAt '/' s.data
  let network ← Chain.fromStr (String.mk b1.1)
  let r1 ← b1.2
  let b2 := breakAt '/' r1
  let address ← addressFromStr (String.mk b2.1)
  let r2 ← b2.2
  let id ← u256FromDecStr (String.mk r2)
  pure ⟨network, address, id⟩

/-- The `NftId` serializer: `format!("{}/{:?}/{}", network, address, id)`
as a JSON string (`{:?}` on an `H160` prints `0x` plus the full lowercase
hex). -/
def NftId.toWire (n : NftId) : String :=
  n.network.wireName ++ "/" ++ renderAddress n.address ++ "/"
    ++ String.mk (renderBase 10 1 n.id)

/-- An `NftId` deserializes only from a JSON string. -/
def NftId.fromJson (j : Json) : Option NftId :=
  match j with
  | .str s => NftId.fromWire s
  | _ => none

def NftId.toJson (n : NftId) : Json :=
  .str n.toWire

/-! ## Records of `schema.rs` -/

/-- A collection on OpenSea (the event-payload side): an opaque slug,
wire-encoded as `{ "slug": <string> }`. -/
structure Collection where
  slug : String
deriving DecidableEq

def Collection.fromJson (j : Json) : Option Collection :=
  match j with
  | .obj fs =>
    match jLookup fs "slug" with
    | some (.str s) => some ⟨s⟩
    | _ => none
  | _ => none

def Collection.toJson (c : Collection) : Json :=
  .obj [("slug", .str c.slug)]

/-- Basic metadata of an item; every field optional. -/
structure Metadata where
  name : Option String
  description : Option String
  image_url : Option String
  animation_url : Option String
  metadata_url : Option String
deriving DecidableEq

/-- Context about an item. -/
structure Item where
  nft_id : NftId
  permalink : String
  chain : Chain
  metadata : Metadata
deriving DecidableEq

/-- Context for a message: collection and item, flattened into every
payload object. -/
structure Context where
  collection : Collection
  item : Item
deriving DecidableEq

/-- Auctioning system used by the listing. -/
inductive ListingType where
  | English | Dutch
deriving DecidableEq

/-- Details of a transaction. -/
structure Transaction where
  hash : Nat
  timestamp : String
deriving DecidableEq

/-- Token used for payment. -/
structure PaymentToken where
  address : Nat
  decimals : Nat
  eth_price : Rat
  name : String
  symbol : String
  usd_price : Rat
deriving DecidableEq

/-! ## Leaf-record codecs -/

/-- The `Chain` enum is internally tagged (`tag = "name"`, lowercase names,
`"matic"` for `Polygon`): it decodes from an object whose `name` field is
one of the seven wire names. -/
def Chain.fromJson (j : Json) : Option Chain :=
  match j with
  | .obj fs =>
    match jLookup fs "name" with
    | some (.str s) => Chain.fromStr s
    | _ => none
  | _ => none

def Chain.toJson (c : Chain) : Json :=
  .obj [("name", .str c.wireName)]

/-- A `ListingType` decodes from its lowercase variant name. -/
def ListingType.fromJson (j : Json) : Option ListingType :=
  match j with
  | .str "english" => some .English
  | .str "dutch" => some .Dutch
  | _ => none

def ListingType.toJson : ListingType → Json
  | .English => .str "english"
  | .Dutch => .str "dutch"

/-- The `address_fromjson` codec: unwraps `{ "address": <0x hex> }`. -/
def address_fromjson (j : Json) : Option Nat :=
  match j with
  | .obj fs =>
    match jLookup fs "address" with
    | some (.str s) => addressSerdeHex s
    | _ => none
  | _ => none

def address_tojson (a : Nat) : Json :=
  .obj [("address", .str (renderAddress a))]

/-- The `address_fromjson_opt` codec: the whole wrapper object may be
`null`, yielding `none`. -/
def address_fromjson_opt (j : Json) : Option (Option Nat) :=
  match j with
  | .null => some none
  | j => (address_fromjson j).map some

def address_opt_tojson : Option Nat → Json
  | none => .null
  | some a => address_tojson a

/-- A `taker`-style field: `address_fromjson_opt` together with
`#[serde(default)]`, so an absent key also gives `none`. -/
def optAddrField (fs : List (String × Json)) (k : String) :
    Option (Option Nat) :=
  match jLookup fs k with
  | none => some none
  | some v => address_fromjson_opt v

def Metadata.fromJson (j : Json) : Option Metadata :=
  match j with
  | .obj fs => do
    let name ← optField fs "name" asStr
    let description ← optField fs "description" asStr
    let image_url ← optField fs "image_url" urlFromJson
    let animation_url ← optField fs "animation_url" urlFromJson
    let metadata_url ← optField fs "metadata_url" urlFromJson
    pure ⟨name, description, image_url, animation_url, metadata_url⟩
  | _ => none

def Metadata.toJson (m : Metadata) : Json :=
  .obj [("name", encOpt .str m.name),
    ("description", encOpt .str m.description),
    ("image_url", encOpt .str m.image_url),
    ("animation_url", encOpt .str m.animation_url),
    ("metadata_url", encOpt .str m.metadata_url)]

def Item.fromJson (j : Json) : Option Item :=
  match j with
  | .obj fs => do
    let nft_id ← reqField fs "nft_id" NftId.fromJson
    let permalink ← reqField fs "permalink" urlFromJson
    let chain ← reqField fs "chain" Chain.fromJson
    let metadata ← reqField fs "metadata" Metadata.fromJson
    pure ⟨nft_id, permalink, chain, metadata⟩
  | _ => none

def Item.toJson (i : Item) : Json :=
  .obj [("nft_id", i.nft_id.toJson),
    ("permalink", .str i.permalink),
    ("chain", i.chain.toJson),
    ("metadata", i.metadata.toJson)]

/-- The `Context` record is `#[serde(flatten)]`ed: its two fields live in the same
object as the kind-specific fields. -/
def Context.fromFields (fs : List (String × Json)) : Option Context := do
  let collection ← reqField fs "collection" Collection.fromJson
  let item ← reqField fs "item" Item.fromJson
  pure ⟨collection, item⟩

def Context.toFields (c : Context) : List (String × Json) :=
  [("collection", c.collection.toJson), ("item", c.item.toJson)]

def PaymentToken.fromJson (j : Json) : Option PaymentToken :=
  match j with
  | .obj fs => do
    let address ← reqField fs "address"
      (fun v => (asStr v).bind addressSerdeHex)
    let decimals ← reqField fs "decimals" u64FromJson
    let eth_price ← reqField fs "eth_price" f64FromJson
    let name ← reqField fs "name" asStr
    let symbol ← reqField fs "symbol" asStr
    let usd_price ← reqField fs "usd_price" f64FromJson
    pure ⟨address, decimals, eth_price, name, symbol, usd_price⟩
  | _ => none

def PaymentToken.toJson (p : PaymentToken) : Json :=
  .obj [("address", .str (renderAddress p.address)),
    ("decimals", u64ToJson p.decimals),
    ("eth_price", f64ToJson p.eth_price),
    ("name", .str p.name),
    ("symbol", .str p.symbol),
    ("usd_price", f64ToJson p.usd_price)]

def Transaction.fromJson (j : Json) : Option Transaction :=
  match j with
  | .obj fs => do
    let hash ← reqField fs "hash" h256FromJson
    let timestamp ← reqField fs "timestamp" dateFromJson
    pure ⟨hash, timestamp⟩
  | _ => none

def Transaction.toJson (t : Transaction) : Json :=
  .obj [("hash", renderH256 t.hash), ("timestamp", .str t.timestamp)]

/-! ## The seven event-kind payload records -/

/-- Payload data for `Payload::ItemListed`. -/
structure ItemListedData where
  context : Context
  event_timestamp : String
  base_price : Nat
  expiration_date : String
  is_private : Bool
  listing_date : String
  listing_type : Option ListingType
  maker : Nat
  payment_token : PaymentToken
  quantity : Nat
  taker : Option Nat
deriving DecidableEq

def ItemListedData.fromJson (j : Json) : Option ItemListedData :=
  match j with
  | .obj fs => do
    let context ← Context.fromFields fs
    let event_timestamp ← reqField fs "event_timestamp" dateFromJson
    let base_price ← reqField fs "base_price" u256Deserialize
    let expiration_date ← reqField fs "expiration_date" dateFromJson
    let is_private ← reqField fs "is_private" asBool
    let listing_date ← reqField fs "listing_date" dateFromJson
    let listing_type ← optField fs "listing_type" ListingType.fromJson
    let maker ← reqField fs "maker" address_fromjson
    let payment_token ← reqField fs "payment_token" PaymentToken.fromJson
    let quantity ← reqField fs "quantity" u64FromJson
    let taker ← optAddrField fs "taker"
    pure ⟨context, event_timestamp, base_price, expiration_date,
      is_private, listing_date, listing_type, maker, payment_token,
      quantity, taker⟩
  | _ => none

def ItemListedData.toJson (d : ItemListedData) : Json :=
  .obj (Context.toFields d.context ++
    [("event_timestamp", .str d.event_timestamp),
     ("base_price", u256Serialize d.base_price),
     ("expiration_date", .str d.expiration_date),
     ("is_private", .bool d.is_private),
     ("listing_date", .str d.listing_date),
     ("listing_type", encOpt ListingType.toJson d.listing_type),
     ("maker", address_tojson d.maker),
     ("payment_token", d.payment_token.toJson),
     ("quantity", u64ToJson d.quantity),
     ("taker", address_opt_tojson d.taker)])

/-- Payload data for `Payload::ItemSold`; `taker` is required here. -/
structure ItemSoldData where
  context : Context
  event_timestamp : String
  closing_date : String
  is_private : Bool
  listing_type : Option ListingType
  maker : Nat
  payment_token : PaymentToken
  quantity : Nat
  sale_price : Nat
  taker : Nat
  transaction : Transaction
deriving DecidableEq

def ItemSoldData.fromJson (j : Json) : Option ItemSoldData :=
  match j with
  | .obj fs => do
    let context ← Context.fromFields fs
    let event_timestamp ← reqField fs "event_timestamp" dateFromJson
    let closing_date ← reqField fs "closing_date" dateFromJson
    let is_private ← reqField fs "is_private" asBool
    let listing_type ← optField fs "listing_type" ListingType.fromJson
    let maker ← reqField fs "maker" address_fromjson
    let payment_token ← reqField fs "payment_token" PaymentToken.fromJson
    let quantity ← reqField fs "quantity" u64FromJson
    let sale_price ← reqField fs "sale_price" u256Deserialize
    let taker ← reqField fs "taker" address_fromjson
    let transaction ← reqField fs "transaction" Transaction.fromJson
    pure ⟨context, event_timestamp, closing_date, is_private,
      listing_type, maker, payment_token, quantity, sale_price, taker,
      transaction⟩
  | _ => none

def ItemSoldData.toJson (d : ItemSoldData) : Json :=
  .obj (Context.toFields d.context ++
    [("event_timestamp", .str d.event_timestamp),
     ("closing_date", .str d.closing_date),
     ("is_private", .bool d.is_private),
     ("listing_type", encOpt ListingType.toJson d.listing_type),
     ("maker", address_tojson d.maker),
     ("payment_token", d.payment_token.toJson),
     ("quantity", u64ToJson d.quantity),
     ("sale_price", u256Serialize d.sale_price),
     ("taker", address_tojson d.taker),
     ("transaction", d.transaction.toJson)])

/-- Payload data for `Payload::ItemTransferred`. -/
structure ItemTransferredData where
  context : Context
  event_timestamp : String
  transaction : Transaction
  from_account : Nat
  to_account : Nat
  quantity : Nat
deriving DecidableEq

def ItemTransferredData.fromJson (j : Json) : Option ItemTransferredData :=
  match j with
  | .obj fs => do
    let context ← Context.fromFields fs
    let event_timestamp ← reqField fs "event_timestamp" dateFromJson
    let transaction ← reqField fs "transaction" Transaction.fromJson
    let from_account ← reqField fs "from_account" address_fromjson
    let to_account ← reqField fs "to_account" address_fromjson
    let quantity ← reqField fs "quantity" u64FromJson
    pure ⟨context, event_timestamp, transaction, from_account,
      to_account, quantity⟩
  | _ => none

def ItemTransferredData.toJson (d : ItemTransferredData) : Json :=
  .obj (Context.toFields d.context ++
    [("event_timestamp", .str d.event_timestamp),
     ("transaction", d.transaction.toJson),
     ("from_account", address_tojson d.from_account),
     ("to_account", address_tojson d.to_account),
     ("quantity", u64ToJson d.quantity)])

/-- Payload data for `Payload::ItemMetadataUpdated`; `traits` is an
opaque sequence, `[]` when absent (`#[serde(default)]`). -/
structure ItemMetadataUpdatedData where
  context : Context
  name : Option String
  description : Option String
  image_preview_url : Option String
  animation_url : Option String
  background_color : Option String
  metadata_url : Option String
  traits : List Json

def ItemMetadataUpdatedData.fromJson (j : Json) :
    Option ItemMetadataUpdatedData :=
  match j with
  | .obj fs => do
    let context ← Context.fromFields fs
    let name ← optField fs "name" asStr
    let description ← optField fs "description" asStr
    let image_preview_url ← optField fs "image_preview_url" urlFromJson
    let animation_url ← optField fs "animation_url" urlFromJson
    let background_color ← optField fs "background_color" asStr
    let metadata_url ← optField fs "metadata_url" urlFromJson
    let traits ←
      match jLookup fs "traits" with
      | none => some []
      | some (.arr xs) => some xs
      | some _ => none
    pure ⟨context, name, description, image_preview_url, animation_url,
      background_color, metadata_url, traits⟩
  | _ => none

def ItemMetadataUpdatedData.toJson (d : ItemMetadataUpdatedData) : Json :=
  .obj (Context.toFields d.context ++
    [("name", encOpt .str d.name),
     ("description", encOpt .str d.description),
     ("image_preview_url", encOpt .str d.image_preview_url),
     ("animation_url", encOpt .str d.animation_url),
     ("background_color", encOpt .str d.background_color),
     ("metadata_url", encOpt .str d.metadata_url),
     ("traits", .arr d.traits)])

/-- Payload data for `Payload::ItemCancelled`. -/
structure ItemCancelledData where
  context : Context
  event_timestamp : String
  listing_type : Option ListingType
  payment_token : PaymentToken
  quantity : Nat
  transaction : Transaction
deriving DecidableEq

def ItemCancelledData.fromJson (j : Json) : Option ItemCancelledData :=
  match j with
  | .obj fs => do
    let context ← Context.fromFields fs
    let event_timestamp ← reqField fs "event_timestamp" dateFromJson
    let listing_type ← optField fs "listing_type" ListingType.fromJson
    let payment_token ← reqField fs "payment_token" PaymentToken.fromJson
    let quantity ← reqField fs "quantity" u64FromJson
    let transaction ← reqField fs "transaction" Transaction.fromJson
    pure ⟨context, event_timestamp, listing_type, payment_token,
      quantity, transaction⟩
  | _ => none

def ItemCancelledData.toJson (d : ItemCancelledData) : Json :=
  .obj (Context.toFields d.context ++
    [("event_timestamp", .str d.event_timestamp),
     ("listing_type", encOpt ListingType.toJson d.listing_type),
     ("payment_token", d.payment_token.toJson),
     ("quantity", u64ToJson d.quantity),
     ("transaction", d.transaction.toJson)])

/-- Payload data for `Payload::ItemReceivedOffer`. -/
structure ItemReceivedOfferData where
  context : Context
  event_timestamp : String
  base_price : Nat
  created_date : String
  expiration_date : String
  maker : Nat
  payment_token : PaymentToken
  quantity : Nat
  taker : Option Nat
deriving DecidableEq

def ItemReceivedOfferData.fromJson (j : Json) :
    Option ItemReceivedOfferData :=
  match j with
  | .obj fs => do
    let context ← Context.fromFields fs
    let event_timestamp ← reqField fs "event_timestamp" dateFromJson
    let base_price ← reqField fs "base_price" u256Deserialize
    let created_date ← reqField fs "created_date" dateFromJson
    let expiration_date ← reqField fs "expiration_date" dateFromJson
    let maker ← reqField fs "maker" address_fromjson
    let payment_token ← reqField fs "payment_token" PaymentToken.fromJson
    let quantity ← reqField fs "quantity" u64FromJson
    let taker ← optAddrField fs "taker"
    pure ⟨context, event_timestamp, base_price, created_date,
      expiration_date, maker, payment_token, quantity, taker⟩
  | _ => none

def ItemReceivedOfferData.toJson (d : ItemReceivedOfferData) : Json :=
  .obj (Context.toFields d.context ++
    [("event_timestamp", .str d.event_timestamp),
     ("base_price", u256Serialize d.base_price),
     ("created_date", .str d.created_date),
     ("expiration_date", .str d.expiration_date),
     ("maker", address_tojson d.maker),
     ("payment_token", d.payment_token.toJson),
     ("quantity", u64ToJson d.quantity),
     ("taker", address_opt_tojson d.taker)])

/-- Payload data for `Payload::ItemReceivedBid`. -/
structure ItemReceivedBidData where
  context : Context
  event_timestamp : String
  base_price : Nat
  created_date : String
  expiration_date : String
  maker : Nat
  payment_token : PaymentToken
  quantity : Nat
  taker : Option Nat
deriving DecidableEq

def ItemReceivedBidData.fromJson (j : Json) : Option ItemReceivedBidData :=
  match j with
  | .obj fs => do
    let context ← Context.fromFields fs
    let event_timestamp ← reqField fs "event_timestamp" dateFromJson
    let base_price ← reqField fs "base_price" u256Deserialize
    let created_date ← reqField fs "created_date" dateFromJson
    let expiration_date ← reqField fs "expiration_date" dateFromJson
    let maker ← reqField fs "maker" address_fromjson
    let payment_token ← reqField fs "payment_token" PaymentToken.fromJson
    let quantity ← reqField fs "quantity" u64FromJson
    let taker ← optAddrField fs "taker"
    pure ⟨context, event_timestamp, base_price, created_date,
      expiration_date, maker, payment_token, quantity, taker⟩
  | _ => none

def ItemReceivedBidData.toJson (d : ItemReceivedBidData) : Json :=
  .obj (Context.toFields d.context ++
    [("event_timestamp", .str d.event_timestamp),
     ("base_price", u256Serialize d.base_price),
     ("created_date", .str d.created_date),
     ("expiration_date", .str d.expiration_date),
     ("maker", address_tojson d.maker),
     ("payment_token", d.payment_token.toJson),
     ("quantity", u64ToJson d.quantity),
     ("taker", address_opt_tojson d.taker)])

/-! ## The payload union and the envelope -/

/-- Content of the message: adjacently tagged
(`tag = "event_type"`, `content = "payload"`, `snake_case` names). -/
inductive Payload where
  | ItemListed : ItemListedData → Payload
  | ItemSold : ItemSoldData → Payload
  | ItemTransferred : ItemTransferredData → Payload
  | ItemMetadataUpdated : ItemMetadataUpdatedData → Payload
  | ItemCancelled : ItemCancelledData → Payload
  | ItemReceivedOffer : ItemReceivedOfferData → Payload
  | ItemReceivedBid : ItemReceivedBidData → Payload

/-- The `snake_case` tag of each variant. -/
def Payload.tag : Payload → String
  | .ItemListed _ => "item_listed"
  | .ItemSold _ => "item_sold"
  | .ItemTransferred _ => "item_transferred"
  | .ItemMetadataUpdated _ => "item_metadata_updated"
  | .ItemCancelled _ => "item_cancelled"
  | .ItemReceivedOffer _ => "item_received_offer"
  | .ItemReceivedBid _ => "item_received_bid"

/-- The encoded content of each variant. -/
def Payload.body : Payload → Json
  | .ItemListed d => d.toJson
  | .ItemSold d => d.toJson
  | .ItemTransferred d => d.toJson
  | .ItemMetadataUpdated d => d.toJson
  | .ItemCancelled d => d.toJson
  | .ItemReceivedOffer d => d.toJson
  | .ItemReceivedBid d => d.toJson

/-- Dispatch on the `event_type` tag: the set of accepted tags is closed,
any other tag fails. -/
def Payload.fromTagged (tag : String) (body : Json) : Option Payload :=
  if tag = "item_listed" then (ItemListedData.fromJson body).map .ItemListed
  else if tag = "item_sold" then (ItemSoldData.fromJson body).map .ItemSold
  else if tag = "item_transferred" then
    (ItemTransferredData.fromJson body).map .ItemTransferred
  else if tag = "item_metadata_updated" then
    (ItemMetadataUpdatedData.fromJson body).map .ItemMetadataUpdated
  else if tag = "item_cancelled" then
    (ItemCancelledData.fromJson body).map .ItemCancelled
  else if tag = "item_received_offer" then
    (ItemReceivedOfferData.fromJson body).map .ItemReceivedOffer
  else if tag = "item_received_bid" then
    (ItemReceivedBidData.fromJson body).map .ItemReceivedBid
  else none

/-- Payload of a message received from the websocket: the envelope
(`sent_at` plus the flattened tagged payload). -/
structure StreamEvent where
  sent_at : String
  payload : Payload

/-- Decode a `StreamEvent` from a JSON document. -/
def StreamEvent.fromJson (j : Json) : Option StreamEvent :=
  match j with
  | .obj fs => do
    let sent_at ← reqField fs "sent_at" dateFromJson
    let tag ← (jLookup fs "event_type").bind asStr
    let body ← jLookup fs "payload"
    let payload ← Payload.fromTagged tag body
    pure ⟨sent_at, payload⟩
  | _ => none

/-- Encode a `StreamEvent` back to a JSON document. -/
def StreamEvent.toJson (ev : StreamEvent) : Json :=
  .obj [("sent_at", .str ev.sent_at),
    ("event_type", .str ev.payload.tag),
    ("payload", ev.payload.body)]

/-! ## The subscription-side collection identifier (`protocol.rs`) -/

namespace Protocol

/-- A collection whose events can be subscribed to: a slug, or the
wildcard for all collections. -/
inductive Collection where
  | Collection : String → Collection
  | All : Collection
deriving DecidableEq

/-- The `Display`/`Serialize` impl: `"collection:<slug>"`, with `"*"` for
the wildcard. -/
def Collection.toWire : Protocol.Collection → String
  | .Collection c => "collection:" ++ c
  | .All => "collection:*"

def Collection.serialize (c : Protocol.Collection) : Json :=
  .str c.toWire

/-- Strip a leading `"collection:"`, the `strip_prefix` call of the
deserializer. -/
def stripCollTag (s : String) : Option String :=
  match s.data with
  | 'c' :: 'o' :: 'l' :: 'l' :: 'e' :: 'c' :: 't' :: 'i' :: 'o' :: 'n'
      :: ':' :: rest => some (String.mk rest)
  | _ => none

/-- The `Deserialize` impl: expect a string, strip the `collection:` tag,
then `"*"` is the wildcard and anything else a slug. -/
def Collection.deserialize (j : Json) : Option Protocol.Collection :=
  match j with
  | .str s =>
    match stripCollTag s with
    | some r => some (if r = "*" then .All else .Collection r)
    | none => none
  | _ => none

end Protocol

/-! ## Well-formedness

The model-side invariants that every value of the corresponding Rust type
carries: numeric fields fit their machine width, textual timestamp/URL
fields have the shape their library parser guarantees, float fields are
finite decimals. -/

def wfOpt (p : α → Bool) : Option α → Bool
  | none => true
  | some a => p a

def wfAddress (a : Nat) : Bool := a < 2 ^ 160

def wfMetadata (m : Metadata) : Bool :=
  wfOpt isUrlStr m.image_url && wfOpt isUrlStr m.animation_url
    && wfOpt isUrlStr m.metadata_url

def wfNftId (n : NftId) : Bool :=
  wfAddress n.address && n.id < 2 ^ 256

def wfItem (i : Item) : Bool :=
  wfNftId i.nft_id && isUrlStr i.permalink && wfMetadata i.metadata

def wfContext (c : Context) : Bool :=
  wfItem c.item

def wfPaymentToken (p : PaymentToken) : Bool :=
  wfAddress p.address && p.decimals < 2 ^ 64 && wfF64 p.eth_price
    && wfF64 p.usd_price

def wfTransaction (t : Transaction) : Bool :=
  t.hash < 2 ^ 256 && isRfc3339 t.timestamp

def wfItemListedData (d : ItemListedData) : Bool :=
  wfContext d.context && isRfc3339 d.event_timestamp
    && d.base_price < 2 ^ 256 && isRfc3339 d.expiration_date
    && isRfc3339 d.listing_date && wfAddress d.maker
    && wfPaymentToken d.payment_token && d.quantity < 2 ^ 64
    && wfOpt wfAddress d.taker

def wfItemSoldData (d : ItemSoldData) : Bool :=
  wfContext d.context && isRfc3339 d.event_timestamp
    && isRfc3339 d.closing_date && wfAddress d.maker
    && wfPaymentToken d.payment_token && d.quantity < 2 ^ 64
    && d.sale_price < 2 ^ 256 && wfAddress d.taker
    && wfTransaction d.transaction

def wfItemTransferredData (d : ItemTransferredData) : Bool :=
  wfContext d.context && isRfc3339 d.event_timestamp
    && wfTransaction d.transaction && wfAddress d.from_account
    && wfAddress d.to_account && d.quantity < 2 ^ 64

def wfItemMetadataUpdatedData (d : ItemMetadataUpdatedData) : Bool :=
  wfContext d.context && wfOpt isUrlStr d.image_preview_url
    && wfOpt isUrlStr d.animation_url && wfOpt isUrlStr d.metadata_url

def wfItemCancelledData (d : ItemCancelledData) : Bool :=
  wfContext d.context && isRfc3339 d.event_timestamp
    && wfPaymentToken d.payment_token && d.quantity < 2 ^ 64
    && wfTransaction d.transaction

def wfItemReceivedOfferData (d : ItemReceivedOfferData) : Bool :=
  wfContext d.context && isRfc3339 d.event_timestamp
    && d.base_price < 2 ^ 256 && isRfc3339 d.created_date
    && isRfc3339 d.expiration_date && wfAddress d.maker
    && wfPaymentToken d.payment_token && d.quantity < 2 ^ 64
    && wfOpt wfAddress d.taker

def wfItemReceivedBidData (d : ItemReceivedBidData) : Bool :=
  wfContext d.context && isRfc3339 d.event_timestamp
    && d.base_price < 2 ^ 256 && isRfc3339 d.created_date
    && isRfc3339 d.expiration_date && wfAddress d.maker
    && wfPaymentToken d.payment_token && d.quantity < 2 ^ 64
    && wfOpt wfAddress d.taker

def wfPayload : Payload → Bool
  | .ItemListed d => wfItemListedData d
  | .ItemSold d => wfItemSoldData d
  | .ItemTransferred d => wfItemTransferredData d
  | .ItemMetadataUpdated d => wfItemMetadataUpdatedData d
  | .ItemCancelled d => wfItemCancelledData d
  | .ItemReceivedOffer d => wfItemReceivedOfferData d
  | .ItemReceivedBid d => wfItemReceivedBidData d

def wfStreamEvent (ev : StreamEvent) : Bool :=
  isRfc3339 ev.sent_at && wfPayload ev.payload

/-! ## Digit-string auxiliary lemmas -/

theorem char_not_mem_renderBase {b : Nat} (hb : b = 10 ∨ b = 16)
    (ch : Char) (hch : digVal b ch = none) (w n : Nat) :
    ch ∉ renderBase b w n := by
  intro hm
  have := renderBase_all_digits b w n hb ch hm
  rw [hch] at this
  cases this

theorem valBase_shift (b : Nat) :
    ∀ (l : List Char) (a : Nat),
      l.foldl (fun x c => x * b + (digVal b c).getD 0) a
        = a * b ^ l.length + valBase b l := by
  intro l
  induction l with
  | nil => intro a; simp [valBase]
  | cons c l ih =>
    intro a
    have h0 : valBase b (c :: l)
        = (digVal b c).getD 0 * b ^ l.length + valBase b l := by
      show List.foldl _ ((0 : Nat) * b + (digVal b c).getD 0) l = _
      rw [ih ((0 : Nat) * b + (digVal b c).getD 0)]
      ring_nf
    simp only [List.foldl_cons, List.length_cons, h0]
    rw [ih (a * b + (digVal b c).getD 0)]
    ring

theorem valBase_append (b : Nat) (l1 l2 : List Char) :
    valBase b (l1 ++ l2) = valBase b l1 * b ^ l2.length + valBase b l2 := by
  unfold valBase
  rw [List.foldl_append]
  exact valBase_shift b l2 _

theorem renderBase_length_ge (b w n : Nat) :
    w ≤ (renderBase b w n).length := by
  unfold renderBase digitsPadded
  simp only [List.length_map, List.length_reverse, List.length_append,
    List.length_replicate]
  omega

theorem parseBase_of_parts {b : Nat} {l : List Char}
    (hne : l ≠ []) (hd : ∀ c ∈ l, (digVal b c).isSome) :
    parseBase b l = some (valBase b l) := by
  unfold parseBase
  rw [if_neg (by simpa [List.isEmpty_iff] using hne)]
  rw [if_pos (by rw [List.all_eq_true]; intro c hc; simpa using hd c hc)]

theorem parseBase_eq_some {b : Nat} {l : List Char} {n : Nat}
    (h : parseBase b l = some n) :
    l ≠ [] ∧ (∀ c ∈ l, (digVal b c).isSome) ∧ n = valBase b l := by
  unfold parseBase at h
  by_cases h1 : l.isEmpty
  · rw [if_pos h1] at h; cases h
  · rw [if_neg h1] at h
    by_cases h2 : l.all fun c => (digVal b c).isSome
    · rw [if_pos h2] at h
      refine ⟨by simpa [List.isEmpty_iff] using h1, ?_, ?_⟩
      · intro c hc
        simpa using (List.all_eq_true.mp h2) c hc
      · exact (Option.some.injEq _ _ ▸ h).symm
    · rw [if_neg h2] at h; cases h

theorem lt_pow10_of_lt_pow2 {n e : Nat} (he : e ≤ 600)
    (h : n < 2 ^ e) : n < 10 ^ 600 :=
  lt_of_lt_of_le h
    (le_trans (Nat.pow_le_pow_left (by omega) e)
      (Nat.pow_le_pow_right (by omega) he))

theorem lt_pow16_600 {n w : Nat} (hw : w ≤ 600) (h : n < 16 ^ w) :
    n < 16 ^ 600 :=
  lt_of_lt_of_le h (Nat.pow_le_pow_right (by omega) hw)

/-! ## Leaf codec round trips -/

theorem dateFromJson_rt {s : String} (h : isRfc3339 s) :
    dateFromJson (.str s) = some s := by
  simp [dateFromJson, h]

theorem urlFromJson_rt {s : String} (h : isUrlStr s) :
    urlFromJson (.str s) = some s := by
  simp [urlFromJson, h]

theorem u256_rt {n : Nat} (h : n < 2 ^ 256) :
    u256Deserialize (u256Serialize n) = some n := by
  show u256FromDecStr (String.mk (renderBase 10 1 n)) = some n
  unfold u256FromDecStr
  show (match parseBase 10 (renderBase 10 1 n) with
    | some n => if n < 2 ^ 256 then some n else none
    | none => none) = some n
  rw [parseBase_renderBase 10 1 n (Or.inl rfl) Nat.one_pos
    (lt_pow10_of_lt_pow2 (by omega) h)]
  show (if n < 2 ^ 256 then some n else none) = some n
  rw [if_pos h]

theorem u64FromJson_rt {n : Nat} (h : n < 2 ^ 64) :
    u64FromJson (u64ToJson n) = some n := by
  show (match parseBase 10 (renderBase 10 1 n) with
    | some n => if n < 2 ^ 64 then some n else none
    | none => none) = some n
  rw [parseBase_renderBase 10 1 n (Or.inl rfl) Nat.one_pos
    (lt_pow10_of_lt_pow2 (by omega) h)]
  show (if n < 2 ^ 64 then some n else none) = some n
  rw [if_pos h]

theorem pow16_pow2 (w : Nat) : (16 : Nat) ^ w = 2 ^ (4 * w) := by
  rw [Nat.pow_mul]

theorem addressSerdeHex_rt {a : Nat} (h : a < 2 ^ 160) :
    addressSerdeHex (renderAddress a) = some a := by
  have h16 : a < 16 ^ 40 := by rw [pow16_pow2]; exact h
  show (if (renderBase 16 40 a).length = 40
      then parseBase 16 (renderBase 16 40 a) else none) = some a
  rw [if_pos (renderBase_length 16 40 a (by omega) h16 (by omega))]
  exact parseBase_renderBase 16 40 a (Or.inr rfl) (by omega)
    (lt_pow16_600 (by omega) h16)

theorem address_fromjson_rt {a : Nat} (h : a < 2 ^ 160) :
    address_fromjson (address_tojson a) = some a := by
  show (match jLookup [("address", .str (renderAddress a))] "address" with
    | some (.str s) => addressSerdeHex s
    | _ => none) = some a
  simp only [jLookup, if_pos rfl]
  exact addressSerdeHex_rt h

theorem address_fromjson_opt_rt {o : Option Nat} (h : wfOpt wfAddress o) :
    address_fromjson_opt (address_opt_tojson o) = some o := by
  cases o with
  | none => rfl
  | some a =>
    show (address_fromjson (address_tojson a)).map some = some (some a)
    rw [address_fromjson_rt (by simpa [wfOpt, wfAddress] using h)]
    rfl

theorem h256FromJson_rt {n : Nat} (h : n < 2 ^ 256) :
    h256FromJson (renderH256 n) = some n := by
  have h16 : n < 16 ^ 64 := by rw [pow16_pow2]; exact h
  show (if (renderBase 16 64 n).length = 64
      then parseBase 16 (renderBase 16 64 n) else none) = some n
  rw [if_pos (renderBase_length 16 64 n (by omega) h16 (by omega))]
  exact parseBase_renderBase 16 64 n (Or.inr rfl) (by omega)
    (lt_pow16_600 (by omega) h16)

theorem chain_fromStr_wireName (c : Chain) :
    Chain.fromStr c.wireName = some c := by
  cases c <;> rfl

theorem chain_fromJson_rt (c : Chain) :
    Chain.fromJson (Chain.toJson c) = some c := by
  show (match jLookup [("name", .str c.wireName)] "name" with
    | some (.str s) => Chain.fromStr s
    | _ => none) = some c
  simp only [jLookup, if_pos rfl]
  exact chain_fromStr_wireName c

theorem listingType_rt (t : ListingType) :
    ListingType.fromJson (ListingType.toJson t) = some t := by
  cases t <;> rfl

theorem slash_not_mem_wireName (c : Chain) : '/' ∉ c.wireName.data := by
  cases c <;> decide

theorem nftId_toWire_data (n : NftId) :
    (NftId.toWire n).data
      = n.network.wireName.data
        ++ '/' :: (('0' :: 'x' :: renderBase 16 40 n.address)
        ++ '/' :: renderBase 10 1 n.id) := by
  unfold NftId.toWire renderAddress
  rw [String.data_append, String.data_append, String.data_append,
    String.data_append]
  simp

theorem u256FromDecStr_render {m : Nat} (hm : m < 2 ^ 256) :
    u256FromDecStr (String.mk (renderBase 10 1 m)) = some m := by
  unfold u256FromDecStr
  show (match parseBase 10 (renderBase 10 1 m) with
    | some v => if v < 2 ^ 256 then some v else none
    | none => none) = some m
  rw [parseBase_renderBase 10 1 m (Or.inl rfl) Nat.one_pos
    (lt_pow10_of_lt_pow2 (by omega) hm)]
  show (if m < 2 ^ 256 then some m else none) = some m
  rw [if_pos hm]

theorem nftId_rt {n : NftId} (h : wfNftId n) :
    NftId.fromJson (NftId.toJson n) = some n := by
  have hw := h
  simp only [wfNftId, wfAddress, Bool.and_eq_true, decide_eq_true_eq] at hw
  obtain ⟨ha, hi⟩ := hw
  have hB : '/' ∉ ('0' :: 'x' :: renderBase 16 40 n.address) := by
    intro hm
    rcases List.mem_cons.mp hm with h1 | hm
    · cases h1
    rcases List.mem_cons.mp hm with h1 | hm
    · cases h1
    exact char_not_mem_renderBase (Or.inr rfl) '/' rfl 40 n.address hm
  have h1 : breakAt '/' (NftId.toWire n).data
      = (n.network.wireName.data,
        some (('0' :: 'x' :: renderBase 16 40 n.address)
          ++ '/' :: renderBase 10 1 n.id)) := by
    rw [nftId_toWire_data]
    exact breakAt_append (slash_not_mem_wireName n.network)
  have h2 : breakAt '/' (('0' :: 'x' :: renderBase 16 40 n.address)
      ++ '/' :: renderBase 10 1 n.id)
      = ('0' :: 'x' :: renderBase 16 40 n.address,
        some (renderBase 10 1 n.id)) :=
    breakAt_append hB
  have h3 : Chain.fromStr (String.mk n.network.wireName.data)
      = some n.network := chain_fromStr_wireName n.network
  have h4 : addressFromStr
      (String.mk ('0' :: 'x' :: renderBase 16 40 n.address))
      = some n.address := by
    show (if (renderBase 16 40 n.address).length = 40
      then parseBase 16 (renderBase 16 40 n.address) else none)
        = some n.address
    have h16 : n.address < 16 ^ 40 := by rw [pow16_pow2]; exact ha
    rw [if_pos (renderBase_length 16 40 n.address (by omega) h16
      (by omega))]
    exact parseBase_renderBase 16 40 n.address (Or.inr rfl) (by omega)
      (lt_pow16_600 (by omega) h16)
  have h5 : u256FromDecStr (String.mk (renderBase 10 1 n.id))
      = some n.id := u256FromDecStr_render hi
  show NftId.fromWire (NftId.toWire n) = some n
  unfold NftId.fromWire
  simp only [h1, h2, h3, h4, h5, Option.bind_eq_bind, Option.some_bind]
  rfl

/-! ## Float codec round trip -/

theorem stripNeg_of_digits {l : List Char}
    (h : ∀ c ∈ l, (digVal 10 c).isSome) : stripNeg l = (false, l) := by
  cases l with
  | nil => rfl
  | cons c r =>
    have hd := h c (List.mem_cons_self c r)
    have hc : c ≠ '-' := by
      intro e
      rw [e] at hd
      exact absurd hd (by decide)
    simp [stripNeg, hc]

theorem natAbs_cast_of_den_one {q : Rat} (hden : q.den = 1) (hq : ¬q < 0) :
    ((q.num.natAbs : Nat) : Rat) = q := by
  have hnum : (q.num : Rat) = q := by
    have := Rat.num_div_den q
    rw [hden] at this
    simpa using this
  rw [Int.cast_natAbs, Int.cast_abs, hnum, abs_of_nonneg (not_lt.mp hq)]

theorem natAbs_cast_of_den_one_neg {q : Rat} (hden : q.den = 1)
    (hq : q < 0) : ((q.num.natAbs : Nat) : Rat) = -q := by
  have hnum : (q.num : Rat) = q := by
    have := Rat.num_div_den q
    rw [hden] at this
    simpa using this
  rw [Int.cast_natAbs, Int.cast_abs, hnum, abs_of_neg hq]

theorem findScale_den {q : Rat} {k : Nat} (hk : findScale q = some k) :
    (q * 10 ^ k).den = 1 ∧ (q * 10 ^ k).num.natAbs < 10 ^ 600 := by
  have := List.find?_some hk
  simpa [Bool.and_eq_true] using this

theorem renderMag_head_digit (k n : Nat) :
    ∃ c r, renderMag k n = c :: r ∧ (digVal 10 c).isSome := by
  by_cases hk0 : k = 0
  · simp only [renderMag, if_pos hk0]
    rcases hl : renderBase 10 1 n with _ | ⟨c, r⟩
    · exact absurd hl (renderBase_ne_nil 10 1 n Nat.one_pos)
    · exact ⟨c, r, rfl, renderBase_all_digits 10 1 n (Or.inl rfl) c
        (hl ▸ List.mem_cons_self c r)⟩
  · simp only [renderMag, if_neg hk0]
    have hlen : k + 1 ≤ (renderBase 10 (k + 1) n).length :=
      renderBase_length_ge 10 (k + 1) n
    rcases hl : (renderBase 10 (k + 1) n).take
        ((renderBase 10 (k + 1) n).length - k) with _ | ⟨c, r⟩
    · exfalso
      have := congrArg List.length hl
      rw [List.length_take] at this
      simp at this
      omega
    · refine ⟨c, r ++ '.' :: (renderBase 10 (k + 1) n).drop
        ((renderBase 10 (k + 1) n).length - k), rfl, ?_⟩
      refine renderBase_all_digits 10 (k + 1) n (Or.inl rfl) c ?_
      refine List.take_subset ((renderBase 10 (k + 1) n).length - k)
        (renderBase 10 (k + 1) n) ?_
      rw [hl]
      exact List.mem_cons_self c r

theorem parseMag_renderMag (k n : Nat) (hn : n < 10 ^ 600) :
    parseMag (renderMag k n) = some ((n : Rat) / 10 ^ k) := by
  by_cases hk0 : k = 0
  · subst hk0
    have hb := breakAt_not_mem
      (char_not_mem_renderBase (Or.inl rfl) '.' rfl 1 n)
    simp [parseMag, renderMag, hb,
      parseBase_renderBase 10 1 n (Or.inl rfl) Nat.one_pos hn]
  · unfold parseMag
    simp only [renderMag, if_neg hk0]
    have hkpos : 0 < k := Nat.pos_of_ne_zero hk0
    set ds := renderBase 10 (k + 1) n with hds
    have hlen : k + 1 ≤ ds.length := renderBase_length_ge 10 (k + 1) n
    have hdig : ∀ c ∈ ds, (digVal 10 c).isSome :=
      renderBase_all_digits 10 (k + 1) n (Or.inl rfl)
    set ip := ds.take (ds.length - k) with hip
    set fp := ds.drop (ds.length - k) with hfp
    have hiplen : ip.length = ds.length - k := by
      rw [hip, List.length_take]; omega
    have hfplen : fp.length = k := by
      rw [hfp, List.length_drop]; omega
    have hipne : ip ≠ [] := by
      intro e
      rw [e] at hiplen
      simp at hiplen
      omega
    have hfpne : fp ≠ [] := by
      intro e
      rw [e] at hfplen
      simp at hfplen
      omega
    have hipdig : ∀ c ∈ ip, (digVal 10 c).isSome :=
      fun c hc => hdig c (List.take_subset _ _ hc)
    have hfpdig : ∀ c ∈ fp, (digVal 10 c).isSome :=
      fun c hc => hdig c (List.drop_subset _ _ hc)
    have hdotip : '.' ∉ ip := fun hm =>
      char_not_mem_renderBase (Or.inl rfl) '.' rfl (k + 1) n
        (List.take_subset _ _ hm)
    have hval : valBase 10 ip * 10 ^ k + valBase 10 fp = n := by
      have hv := valBase_append 10 ip fp
      rw [hip, hfp, List.take_append_drop] at hv
      calc valBase 10 ip * 10 ^ k + valBase 10 fp
          = valBase 10 ip * 10 ^ fp.length + valBase 10 fp := by
            rw [hfplen]
        _ = valBase 10 ds := hv.symm
        _ = n := by rw [hds, valBase_render 10 (k + 1) n (Or.inl rfl) hn]
    rw [breakAt_append hdotip]
    simp only [parseBase_of_parts hipne hipdig,
      parseBase_of_parts hfpne hfpdig, Option.bind_eq_bind,
      Option.some_bind, hfplen]
    congr 1
    have h10 : ((10 : Rat) ^ k) ≠ 0 := by positivity
    have hcast2 : ((valBase 10 ip : Nat) : Rat) * 10 ^ k
        + ((valBase 10 fp : Nat) : Rat) = ((n : Nat) : Rat) := by
      exact_mod_cast congrArg (fun z : Nat => (z : Rat)) hval
    field_simp
    linarith [hcast2]

theorem parseF64_renderF64 {q : Rat} (h : wfF64 q) :
    parseF64 (renderF64 q) = some q := by
  obtain ⟨k, hk⟩ := Option.isSome_iff_exists.mp h
  have hden : (q * 10 ^ k).den = 1 := (findScale_den hk).1
  have hnum : (q * 10 ^ k).num.natAbs < 10 ^ 600 := (findScale_den hk).2
  have h10 : (0 : Rat) < 10 ^ k := by positivity
  obtain ⟨c, r, hcr, hcd⟩ :=
    renderMag_head_digit k (q * 10 ^ k).num.natAbs
  by_cases hneg : q < 0
  · -- negative: a sign character is rendered and stripped back off.
    have hqk : q * 10 ^ k < 0 := mul_neg_of_neg_of_pos hneg h10
    have hcast : (((q * 10 ^ k).num.natAbs : Nat) : Rat)
        = -(q * 10 ^ k) := natAbs_cast_of_den_one_neg hden hqk
    have hmain : (((q * 10 ^ k).num.natAbs : Nat) : Rat) / 10 ^ k
        = -q := by
      rw [div_eq_iff (ne_of_gt h10), hcast]
      ring
    simp only [renderF64, hk, if_pos hneg]
    unfold parseF64
    rw [show (String.mk ('-' :: renderMag k (q * 10 ^ k).num.natAbs)).data
        = '-' :: renderMag k (q * 10 ^ k).num.natAbs from rfl]
    rw [show stripNeg ('-' :: renderMag k (q * 10 ^ k).num.natAbs)
        = (true, renderMag k (q * 10 ^ k).num.natAbs) from by
      simp [stripNeg]]
    simp only [parseMag_renderMag k _ hnum, hmain]
    simp
  · -- nonnegative: no sign character.
    have hqk : ¬q * 10 ^ k < 0 := by
      intro hlt
      exact hneg (lt_of_not_le fun hle =>
        absurd hlt (not_lt.mpr (mul_nonneg hle (le_of_lt h10))))
    have hcast : (((q * 10 ^ k).num.natAbs : Nat) : Rat)
        = q * 10 ^ k := natAbs_cast_of_den_one hden hqk
    have hmain : (((q * 10 ^ k).num.natAbs : Nat) : Rat) / 10 ^ k
        = q := by
      rw [hcast, mul_div_assoc, div_self (ne_of_gt h10), mul_one]
    simp only [renderF64, hk, if_neg hneg]
    unfold parseF64
    rw [show (String.mk (renderMag k (q * 10 ^ k).num.natAbs)).data
        = renderMag k (q * 10 ^ k).num.natAbs from rfl]
    rw [hcr, show stripNeg (c :: r) = (false, c :: r) from by
        have hc : c ≠ '-' := by
          intro e
          rw [e] at hcd
          exact absurd hcd (by decide)
        simp [stripNeg, hc],
      ← hcr]
    simp only [parseMag_renderMag k _ hnum, hmain]
    simp

/-! ## Record round trips -/

theorem decOptVal_str (o : Option String) :
    decOptVal asStr (some (encOpt .str o)) = some o := by
  cases o <;> rfl

theorem decOptVal_url {o : Option String} (h : wfOpt isUrlStr o) :
    decOptVal urlFromJson (some (encOpt .str o)) = some o := by
  cases o with
  | none => rfl
  | some s =>
    show (urlFromJson (.str s)).map some = some (some s)
    rw [urlFromJson_rt (by simpa [wfOpt] using h)]
    rfl

theorem decOptVal_listingType (o : Option ListingType) :
    decOptVal ListingType.fromJson (some (encOpt ListingType.toJson o))
      = some o := by
  rcases o with _ | t
  · rfl
  · cases t <;> rfl

theorem optAddr_rt {o : Option Nat} (h : wfOpt wfAddress o) :
    address_fromjson_opt (address_opt_tojson o) = some o := by
  cases o with
  | none => rfl
  | some a =>
    show (address_fromjson (address_tojson a)).map some = some (some a)
    rw [address_fromjson_rt (by simpa [wfOpt, wfAddress] using h)]
    rfl

theorem collection_rt (c : Collection) :
    Collection.fromJson (Collection.toJson c) = some c := by
  rfl

theorem metadata_rt {m : Metadata} (h : wfMetadata m) :
    Metadata.fromJson (Metadata.toJson m) = some m := by
  simp only [wfMetadata, Bool.and_eq_true] at h
  obtain ⟨⟨h1, h2⟩, h3⟩ := h
  unfold Metadata.toJson Metadata.fromJson
  simp only [jLookup, optField, Option.bind_eq_bind, Option.some_bind,
    decOptVal_str, decOptVal_url h1, decOptVal_url h2, decOptVal_url h3,
    String.reduceEq, reduceIte]
  rfl

theorem f64_rt {q : Rat} (h : wfF64 q) :
    f64FromJson (f64ToJson q) = some q := by
  show parseF64 (renderF64 q) = some q
  exact parseF64_renderF64 h

theorem item_rt {i : Item} (h : wfItem i) :
    Item.fromJson (Item.toJson i) = some i := by
  simp only [wfItem, Bool.and_eq_true] at h
  obtain ⟨⟨hn, hp⟩, hm⟩ := h
  unfold Item.toJson Item.fromJson
  simp only [jLookup, reqField, Option.bind_eq_bind, Option.some_bind,
    String.reduceEq, reduceIte, nftId_rt hn, urlFromJson_rt hp,
    chain_fromJson_rt, metadata_rt hm]
  rfl

theorem context_fields_rt {c : Context} (h : wfContext c)
    (rest : List (String × Json)) :
    Context.fromFields (("collection", c.collection.toJson)
      :: ("item", c.item.toJson) :: rest) = some c := by
  have hi : wfItem c.item := h
  unfold Context.fromFields
  simp only [jLookup, reqField, Option.bind_eq_bind, Option.some_bind,
    String.reduceEq, reduceIte, collection_rt, item_rt hi]
  rfl

theorem paymentToken_rt {p : PaymentToken} (h : wfPaymentToken p) :
    PaymentToken.fromJson (PaymentToken.toJson p) = some p := by
  simp only [wfPaymentToken, wfAddress, Bool.and_eq_true,
    decide_eq_true_eq] at h
  obtain ⟨⟨⟨ha, hd⟩, he⟩, hu⟩ := h
  unfold PaymentToken.toJson PaymentToken.fromJson
  simp only [jLookup, reqField, Option.bind_eq_bind, Option.some_bind,
    String.reduceEq, reduceIte, asStr, addressSerdeHex_rt ha,
    u64FromJson_rt hd, f64_rt he, f64_rt hu]
  rfl

theorem transaction_rt {t : Transaction} (h : wfTransaction t) :
    Transaction.fromJson (Transaction.toJson t) = some t := by
  simp only [wfTransaction, Bool.and_eq_true, decide_eq_true_eq] at h
  obtain ⟨hh, ht⟩ := h
  unfold Transaction.toJson Transaction.fromJson
  simp only [jLookup, reqField, Option.bind_eq_bind, Option.some_bind,
    String.reduceEq, reduceIte, h256FromJson_rt hh, dateFromJson_rt ht]
  rfl

theorem itemListedData_rt {d : ItemListedData} (h : wfItemListedData d) :
    ItemListedData.fromJson (ItemListedData.toJson d) = some d := by
  simp only [wfItemListedData, wfAddress, Bool.and_eq_true,
    decide_eq_true_eq] at h
  obtain ⟨⟨⟨⟨⟨⟨⟨⟨hc, he⟩, hb⟩, hx⟩, hl⟩, hm⟩, hp⟩, hq⟩, ht⟩ := h
  unfold ItemListedData.toJson ItemListedData.fromJson
  simp only [jLookup, reqField, optField, optAddrField, Context.toFields,
    List.cons_append, List.nil_append, Option.bind_eq_bind,
    Option.some_bind, String.reduceEq, reduceIte,
    context_fields_rt hc, dateFromJson_rt he, u256_rt hb,
    dateFromJson_rt hx, asBool, dateFromJson_rt hl,
    decOptVal_listingType, address_fromjson_rt hm, paymentToken_rt hp,
    u64FromJson_rt hq, optAddr_rt ht]
  rfl

theorem itemSoldData_rt {d : ItemSoldData} (h : wfItemSoldData d) :
    ItemSoldData.fromJson (ItemSoldData.toJson d) = some d := by
  simp only [wfItemSoldData, wfAddress, Bool.and_eq_true,
    decide_eq_true_eq] at h
  obtain ⟨⟨⟨⟨⟨⟨⟨⟨hc, he⟩, hx⟩, hm⟩, hp⟩, hq⟩, hs⟩, ht⟩, hr⟩ := h
  unfold ItemSoldData.toJson ItemSoldData.fromJson
  simp only [jLookup, reqField, optField, Context.toFields,
    List.cons_append, List.nil_append, Option.bind_eq_bind,
    Option.some_bind, String.reduceEq, reduceIte,
    context_fields_rt hc, dateFromJson_rt he, dateFromJson_rt hx,
    asBool, decOptVal_listingType, address_fromjson_rt hm,
    paymentToken_rt hp, u64FromJson_rt hq, u256_rt hs,
    address_fromjson_rt ht, transaction_rt hr]
  rfl

theorem itemTransferredData_rt {d : ItemTransferredData}
    (h : wfItemTransferredData d) :
    ItemTransferredData.fromJson (ItemTransferredData.toJson d)
      = some d := by
  simp only [wfItemTransferredData, wfAddress, Bool.and_eq_true,
    decide_eq_true_eq] at h
  obtain ⟨⟨⟨⟨⟨hc, he⟩, hr⟩, hf⟩, ht⟩, hq⟩ := h
  unfold ItemTransferredData.toJson ItemTransferredData.fromJson
  simp only [jLookup, reqField, Context.toFields, List.cons_append,
    List.nil_append, Option.bind_eq_bind, Option.some_bind,
    String.reduceEq, reduceIte, context_fields_rt hc,
    dateFromJson_rt he, transaction_rt hr, address_fromjson_rt hf,
    address_fromjson_rt ht, u64FromJson_rt hq]
  rfl

theorem itemMetadataUpdatedData_rt {d : ItemMetadataUpdatedData}
    (h : wfItemMetadataUpdatedData d) :
    ItemMetadataUpdatedData.fromJson (ItemMetadataUpdatedData.toJson d)
      = some d := by
  simp only [wfItemMetadataUpdatedData, Bool.and_eq_true] at h
  obtain ⟨⟨⟨hc, h1⟩, h2⟩, h3⟩ := h
  unfold ItemMetadataUpdatedData.toJson ItemMetadataUpdatedData.fromJson
  simp only [jLookup, optField, Context.toFields, List.cons_append,
    List.nil_append, Option.bind_eq_bind, Option.some_bind,
    String.reduceEq, reduceIte, context_fields_rt hc, decOptVal_str,
    decOptVal_url h1, decOptVal_url h2, decOptVal_url h3]
  rfl

theorem itemCancelledData_rt {d : ItemCancelledData}
    (h : wfItemCancelledData d) :
    ItemCancelledData.fromJson (ItemCancelledData.toJson d) = some d := by
  simp only [wfItemCancelledData, Bool.and_eq_true,
    decide_eq_true_eq] at h
  obtain ⟨⟨⟨⟨hc, he⟩, hp⟩, hq⟩, hr⟩ := h
  unfold ItemCancelledData.toJson ItemCancelledData.fromJson
  simp only [jLookup, reqField, optField, Context.toFields,
    List.cons_append, List.nil_append, Option.bind_eq_bind,
    Option.some_bind, String.reduceEq, reduceIte,
    context_fields_rt hc, dateFromJson_rt he, decOptVal_listingType,
    paymentToken_rt hp, u64FromJson_rt hq, transaction_rt hr]
  rfl

theorem itemReceivedOfferData_rt {d : ItemReceivedOfferData}
    (h : wfItemReceivedOfferData d) :
    ItemReceivedOfferData.fromJson (ItemReceivedOfferData.toJson d)
      = some d := by
  simp only [wfItemReceivedOfferData, wfAddress, Bool.and_eq_true,
    decide_eq_true_eq] at h
  obtain ⟨⟨⟨⟨⟨⟨⟨⟨hc, he⟩, hb⟩, hd2⟩, hx⟩, hm⟩, hp⟩, hq⟩, ht⟩ := h
  unfold ItemReceivedOfferData.toJson ItemReceivedOfferData.fromJson
  simp only [jLookup, reqField, optField, optAddrField,
    Context.toFields, List.cons_append, List.nil_append,
    Option.bind_eq_bind, Option.some_bind, String.reduceEq, reduceIte,
    context_fields_rt hc, dateFromJson_rt he, u256_rt hb,
    dateFromJson_rt hd2, dateFromJson_rt hx, address_fromjson_rt hm,
    paymentToken_rt hp, u64FromJson_rt hq, optAddr_rt ht]
  rfl

theorem itemReceivedBidData_rt {d : ItemReceivedBidData}
    (h : wfItemReceivedBidData d) :
    ItemReceivedBidData.fromJson (ItemReceivedBidData.toJson d)
      = some d := by
  simp only [wfItemReceivedBidData, wfAddress, Bool.and_eq_true,
    decide_eq_true_eq] at h
  obtain ⟨⟨⟨⟨⟨⟨⟨⟨hc, he⟩, hb⟩, hd2⟩, hx⟩, hm⟩, hp⟩, hq⟩, ht⟩ := h
  unfold ItemReceivedBidData.toJson ItemReceivedBidData.fromJson
  simp only [jLookup, reqField, optField, optAddrField,
    Context.toFields, List.cons_append, List.nil_append,
    Option.bind_eq_bind, Option.some_bind, String.reduceEq, reduceIte,
    context_fields_rt hc, dateFromJson_rt he, u256_rt hb,
    dateFromJson_rt hd2, dateFromJson_rt hx, address_fromjson_rt hm,
    paymentToken_rt hp, u64FromJson_rt hq, optAddr_rt ht]
  rfl

theorem payload_rt {p : Payload} (h : wfPayload p) :
    Payload.fromTagged p.tag p.body = some p := by
  cases p with
  | ItemListed d =>
    unfold Payload.fromTagged Payload.tag Payload.body
    simp only [String.reduceEq, reduceIte, itemListedData_rt h]
    rfl
  | ItemSold d =>
    unfold Payload.fromTagged Payload.tag Payload.body
    simp only [String.reduceEq, reduceIte, itemSoldData_rt h]
    rfl
  | ItemTransferred d =>
    unfold Payload.fromTagged Payload.tag Payload.body
    simp only [String.reduceEq, reduceIte, itemTransferredData_rt h]
    rfl
  | ItemMetadataUpdated d =>
    unfold Payload.fromTagged Payload.tag Payload.body
    simp only [String.reduceEq, reduceIte, itemMetadataUpdatedData_rt h]
    rfl
  | ItemCancelled d =>
    unfold Payload.fromTagged Payload.tag Payload.body
    simp only [String.reduceEq, reduceIte, itemCancelledData_rt h]
    rfl
  | ItemReceivedOffer d =>
    unfold Payload.fromTagged Payload.tag Payload.body
    simp only [String.reduceEq, reduceIte, itemReceivedOfferData_rt h]
    rfl
  | ItemReceivedBid d =>
    unfold Payload.fromTagged Payload.tag Payload.body
    simp only [String.reduceEq, reduceIte, itemReceivedBidData_rt h]
    rfl

theorem streamEvent_rt {ev : StreamEvent} (h : wfStreamEvent ev) :
    StreamEvent.fromJson (StreamEvent.toJson ev) = some ev := by
  simp only [wfStreamEvent, Bool.and_eq_true] at h
  obtain ⟨hs, hp⟩ := h
  unfold StreamEvent.toJson StreamEvent.fromJson
  simp only [jLookup, reqField, Option.bind_eq_bind, Option.some_bind,
    String.reduceEq, reduceIte, dateFromJson_rt hs, asStr,
    payload_rt hp]
  rfl

/-! ## Equality of JSON documents up to object-field ordering

Two documents are equal up to field ordering when they agree after
recursively sorting every object's fields by key. -/

/-- Lexicographic order on key characters. -/
def charListLe : List Char → List Char → Bool
  | [], _ => true
  | _ :: _, [] => false
  | a :: as, b :: bs =>
    if a.toNat < b.toNat then true
    else if a.toNat = b.toNat then charListLe as bs
    else false

/-- Insert a field into a key-sorted field list. -/
def insertField (p : String × Json) :
    List (String × Json) → List (String × Json)
  | [] => [p]
  | q :: r =>
    if charListLe p.1.data q.1.data then p :: q :: r
    else q :: insertField p r

/-- Sort a field list by key. -/
def sortFields : List (String × Json) → List (String × Json)
  | [] => []
  | p :: r => insertField p (sortFields r)

mutual

/-- Recursively sort every object's fields by key. -/
def normJson : Json → Json
  | .null => .null
  | .bool b => .bool b
  | .num s => .num s
  | .str s => .str s
  | .arr xs => .arr (normJsonList xs)
  | .obj fs => .obj (sortFields (normJsonFields fs))

/-- Apply `normJson` to every element. -/
def normJsonList : List Json → List Json
  | [] => []
  | x :: xs => normJson x :: normJsonList xs

/-- Apply `normJson` to every field value. -/
def normJsonFields : List (String × Json) → List (String × Json)
  | [] => []
  | (k, v) :: r => (k, normJson v) :: normJsonFields r

end

/-- Equality of documents up to object-field ordering. -/
def jsonEqUpToOrder (a b : Json) : Bool :=
  Json.beq (normJson a) (normJson b)

/-! ## Auxiliary facts for the claim theorems -/

theorem optionBind_none (o : Option α) (f : α → Option β)
    (h : ∀ a, f a = none) : o.bind f = none := by
  cases o <;> simp [h]

theorem jLookup_append_miss {k k2 : String} (v : Json)
    (hne : ¬k2 = k) (pfs : List (String × Json)) :
    jLookup (pfs ++ [(k2, v)]) k = jLookup pfs k := by
  induction pfs with
  | nil => simp [jLookup, hne]
  | cons p r ih =>
    rcases p with ⟨k3, w⟩
    by_cases h3 : k3 = k
    · simp [jLookup, h3]
    · simp [jLookup, h3, ih]

theorem jLookup_append_hit {k2 : String} (v : Json)
    {pfs : List (String × Json)} (h : jLookup pfs k2 = none) :
    jLookup (pfs ++ [(k2, v)]) k2 = some v := by
  induction pfs with
  | nil => simp [jLookup]
  | cons p r ih =>
    rcases p with ⟨k3, w⟩
    by_cases h3 : k3 = k2
    · rw [jLookup, if_pos h3] at h
      cases h
    · rw [jLookup, if_neg h3] at h
      simpa [jLookup, h3] using ih h

theorem digVal10_isSome_iff (c : Char) :
    (digVal 10 c).isSome = true ↔ c.isDigit = true := by
  unfold digVal
  have hdig : c.isDigit = true ↔ '0' ≤ c ∧ c ≤ '9' := by
    unfold Char.isDigit
    constructor
    · intro h
      rcases Bool.and_eq_true_iff.mp h with ⟨ha, hb⟩
      exact ⟨of_decide_eq_true ha, of_decide_eq_true hb⟩
    · intro ⟨ha, hb⟩
      exact Bool.and_eq_true_iff.mpr ⟨decide_eq_true ha, decide_eq_true hb⟩
  by_cases h1 : '0' ≤ c ∧ c ≤ '9'
  · have h48 : 48 ≤ c.toNat := h1.1
    have h57 : c.toNat ≤ 57 := h1.2
    have hlt : c.toNat - '0'.toNat < 10 := by
      show c.toNat - 48 < 10
      omega
    rw [if_pos h1]
    simp only [hlt, if_pos, Option.isSome_some, hdig]
    exact iff_of_true trivial h1
  · rw [if_neg h1]
    have hd : c.isDigit = false := by
      rcases Bool.eq_false_or_eq_true c.isDigit with h | h
      · exact absurd (hdig.mp h) h1
      · exact h
    rw [hd]

    by_cases h2 : 'a' ≤ c ∧ c ≤ 'f'
    · have h97 : 97 ≤ c.toNat := h2.1
      have : ¬c.toNat - 'a'.toNat + 10 < 10 := by
        show ¬c.toNat - 97 + 10 < 10
        omega
      rw [if_pos h2]
      simp [this]
    · rw [if_neg h2]
      by_cases h3 : 'A' ≤ c ∧ c ≤ 'F'
      · have h65 : 65 ≤ c.toNat := h3.1
        have : ¬c.toNat - 'A'.toNat + 10 < 10 := by
          show ¬c.toNat - 65 + 10 < 10
          omega
        rw [if_pos h3]
        simp [this]
      · rw [if_neg h3]
        simp

theorem stripCollTag_append (s : String) :
    Protocol.stripCollTag ("collection:" ++ s) = some s := by
  rfl

/-! ## Claim theorems -/

/-- Claim C10: the subscription-side collection-identifier codec is not
injective at the wildcard: `Collection("*")` serializes to
`"collection:*"`, which deserializes to `All`; for every slug other than
the literal `"*"` the serialized identifier deserializes back to the
original value, and every serialized identifier begins with the
`"collection:"` tag. -/
theorem c10_collection_codec :
    Protocol.Collection.serialize (.Collection "*")
      = .str "collection:*" ∧
    Protocol.Collection.deserialize (.str "collection:*") = some .All ∧
    Protocol.Collection.deserialize (Protocol.Collection.serialize .All)
      = some .All ∧
    (∀ s : String, s ≠ "*" →
      Protocol.Collection.deserialize
        (Protocol.Collection.serialize (.Collection s))
        = some (.Collection s)) ∧
    (∀ c : Protocol.Collection, ∃ r : String,
      Protocol.Collection.serialize c = .str ("collection:" ++ r)) := by
  refine ⟨rfl, rfl, rfl, ?_, ?_⟩
  · intro s hs
    show (match Protocol.stripCollTag ("collection:" ++ s) with
      | some r =>
        some (if r = "*" then Protocol.Collection.All
          else Protocol.Collection.Collection r)
      | none => none) = some (Protocol.Collection.Collection s)
    rw [stripCollTag_append]
    simp [hs]
  · intro c
    cases c with
    | Collection s => exact ⟨s, rfl⟩
    | All => exact ⟨"*", rfl⟩

theorem c10_collection_codec_witness :
    ("wandernauts" : String) ≠ "*" ∧
    Protocol.Collection.deserialize
      (Protocol.Collection.serialize (.Collection "wandernauts"))
      = some (.Collection "wandernauts") :=
  ⟨by decide, c10_collection_codec.2.2.2.1 "wandernauts" (by decide)⟩

/-- Claim C7: the numeric-or-string float codec decodes both the JSON
string `"1.23"` and the JSON number `1.23` to the same float value
`1.23`, and the encoder always emits the JSON string form. -/
theorem c7_float_codec :
    f64FromJson (.str "1.23") = some ((123 : Rat) / 100) ∧
    f64FromJson (.num "1.23") = some ((123 : Rat) / 100) ∧
    f64FromJson (.str "1.23") = f64FromJson (.num "1.23") ∧
    (∀ q : Rat, ∃ s : String, f64ToJson q = .str s) := by
  have h : parseF64 "1.23"
      = some ((1 : Rat) + (23 : Rat) / (10 : Rat) ^ 2) := rfl
  have hv : ((1 : Rat) + (23 : Rat) / (10 : Rat) ^ 2)
      = (123 : Rat) / 100 := by norm_num
  have h1 : f64FromJson (.str "1.23") = some ((123 : Rat) / 100) := by
    show parseF64 "1.23" = some ((123 : Rat) / 100)
    rw [h, hv]
  have h2 : f64FromJson (.num "1.23") = some ((123 : Rat) / 100) := by
    show parseF64 "1.23" = some ((123 : Rat) / 100)
    rw [h, hv]
  refine ⟨h1, h2, h1.trans h2.symm, ?_⟩
  intro q
  exact ⟨renderF64 q, rfl⟩

/-- Claim C4: a document whose `event_type` is not one of the seven
recognized tags fails to decode; the accepted set is closed. -/
theorem c4_unknown_event_type (fs : List (String × Json)) (tag : String)
    (htag : jLookup fs "event_type" = some (.str tag))
    (hnot : tag ∉ (["item_listed", "item_sold", "item_transferred",
      "item_metadata_updated", "item_cancelled", "item_received_offer",
      "item_received_bid"] : List String)) :
    StreamEvent.fromJson (.obj fs) = none := by
  simp only [List.mem_cons, List.not_mem_nil, or_false, not_or] at hnot
  obtain ⟨h1, h2, h3, h4, h5, h6, h7⟩ := hnot
  have hft : ∀ body, Payload.fromTagged tag body = none := by
    intro body
    unfold Payload.fromTagged
    rw [if_neg h1, if_neg h2, if_neg h3, if_neg h4, if_neg h5,
      if_neg h6, if_neg h7]
  unfold StreamEvent.fromJson
  simp only [Option.bind_eq_bind]
  apply optionBind_none
  intro sent
  rw [htag]
  show (Option.bind (some tag) fun t => _) = none
  rw [Option.some_bind]
  apply optionBind_none
  intro body
  rw [hft body]
  rfl

theorem wfF64_intro (q : Rat) (k : Nat) (hk : k ≤ 500)
    (h : (q * 10 ^ k).den = 1)
    (h2 : (q * 10 ^ k).num.natAbs < 10 ^ 600) : wfF64 q = true := by
  unfold wfF64 findScale
  rw [List.find?_isSome]
  exact ⟨k, List.mem_range.mpr (by omega), by simp [h, h2]⟩

theorem wfF64_natCast (n : Nat) (hn : n < 10 ^ 600) :
    wfF64 ((n : Nat) : Rat) = true :=
  wfF64_intro _ 0 (by omega)
    (by rw [pow_zero, mul_one, Rat.den_natCast])
    (by rw [pow_zero, mul_one, Rat.num_natCast]; simpa using hn)

theorem soldFromJson_no_taker {pfs : List (String × Json)}
    (h : jLookup pfs "taker" = none) :
    ItemSoldData.fromJson (.obj pfs) = none := by
  unfold ItemSoldData.fromJson
  simp only [Option.bind_eq_bind]
  apply optionBind_none; intro a1
  apply optionBind_none; intro a2
  apply optionBind_none; intro a3
  apply optionBind_none; intro a4
  apply optionBind_none; intro a5
  apply optionBind_none; intro a6
  apply optionBind_none; intro a7
  apply optionBind_none; intro a8
  apply optionBind_none; intro a9
  show ((jLookup pfs "taker").bind address_fromjson).bind _ = none
  rw [h]
  rfl

/-- Claim C5: a document with `event_type: "item_sold"` whose payload
lacks `taker` fails to decode, while an absent `taker` in an
`item_listed`, `item_received_offer` or `item_received_bid` payload is
accepted and decodes to `none`. -/
theorem c5_taker_requiredness :
    (∀ fs pfs : List (String × Json),
      jLookup fs "event_type" = some (.str "item_sold") →
      jLookup fs "payload" = some (.obj pfs) →
      jLookup pfs "taker" = none →
      StreamEvent.fromJson (.obj fs) = none) ∧
    (∀ pfs : List (String × Json), jLookup pfs "taker" = none →
      ∀ d, ItemListedData.fromJson (.obj pfs) = some d →
        d.taker = none) ∧
    (∀ pfs : List (String × Json), jLookup pfs "taker" = none →
      ∀ d, ItemReceivedOfferData.fromJson (.obj pfs) = some d →
        d.taker = none) ∧
    (∀ pfs : List (String × Json), jLookup pfs "taker" = none →
      ∀ d, ItemReceivedBidData.fromJson (.obj pfs) = some d →
        d.taker = none) := by
  refine ⟨?_, ?_, ?_, ?_⟩
  · intro fs pfs htag hpay htaker
    unfold StreamEvent.fromJson
    simp only [Option.bind_eq_bind]
    apply optionBind_none
    intro sent
    rw [htag]
    show (Option.bind (some "item_sold") fun t => _) = none
    rw [Option.some_bind, hpay]
    show (Option.bind (some (Json.obj pfs)) fun b => _) = none
    rw [Option.some_bind]
    have hft : Payload.fromTagged "item_sold" (.obj pfs) = none := by
      unfold Payload.fromTagged
      rw [if_neg (by decide), if_pos rfl, soldFromJson_no_taker htaker]
      rfl
    rw [hft]
    rfl
  · intro pfs htaker d hd
    unfold ItemListedData.fromJson at hd
    simp only [Option.bind_eq_bind, Option.bind_eq_some] at hd
    obtain ⟨a1, -, a2, -, a3, -, a4, -, a5, -, a6, -, a7, -, a8, -,
      a9, -, a10, -, a11, h11, hp⟩ := hd
    rw [optAddrField, htaker] at h11
    cases Option.some.inj hp
    exact (Option.some.inj h11).symm
  · intro pfs htaker d hd
    unfold ItemReceivedOfferData.fromJson at hd
    simp only [Option.bind_eq_bind, Option.bind_eq_some] at hd
    obtain ⟨a1, -, a2, -, a3, -, a4, -, a5, -, a6, -, a7, -, a8, -,
      a9, h9, hp⟩ := hd
    rw [optAddrField, htaker] at h9
    cases Option.some.inj hp
    exact (Option.some.inj h9).symm
  · intro pfs htaker d hd
    unfold ItemReceivedBidData.fromJson at hd
    simp only [Option.bind_eq_bind, Option.bind_eq_some] at hd
    obtain ⟨a1, -, a2, -, a3, -, a4, -, a5, -, a6, -, a7, -, a8, -,
      a9, h9, hp⟩ := hd
    rw [optAddrField, htaker] at h9
    cases Option.some.inj hp
    exact (Option.some.inj h9).symm

theorem digitChar_eq_zero_char {d : Nat} (hd : d < 16)
    (h : digitChar d = '0') : d = 0 := by
  interval_cases d <;> first | rfl | (exact absurd h (by decide))

set_option maxRecDepth 40000

/-- Claim C3: the scaled-integer decoder succeeds exactly on JSON strings
of ASCII decimal digits denoting a value below `2 ^ 256` (so `"-1"`,
`"1.5"`, `""`, and 79-digit values fail, while `"0"`, `"1"` and the
78-digit maximum decode and round-trip exactly), and the encoder renders
a plain decimal string with no leading zeros. -/
theorem c3_u256_codec :
    (∀ j : Json, (u256Deserialize j).isSome = true ↔
      ∃ s : String, j = .str s ∧ s.data ≠ [] ∧
        (∀ ch ∈ s.data, ch.isDigit) ∧ valBase 10 s.data < 2 ^ 256) ∧
    u256Deserialize (.str "0") = some 0 ∧
    u256Deserialize (.str "1") = some 1 ∧
    u256Deserialize (.str "115792089237316195423570985008687907853269984665640564039457584007913129639935")
      = some (2 ^ 256 - 1) ∧
    u256Deserialize (.str "-1") = none ∧
    u256Deserialize (.str "1.5") = none ∧
    u256Deserialize (.str "") = none ∧
    u256Deserialize (.str "1157920892373161954235709850086879078532699846656405640394575840079131296399350")
      = none ∧
    (∀ n : Nat, n < 2 ^ 256 →
      u256Deserialize (u256Serialize n) = some n) ∧
    (∀ n : Nat, u256Serialize n = .str (String.mk (renderBase 10 1 n))) ∧
    u256Serialize 0 = .str "0" ∧
    (∀ n : Nat, n < 2 ^ 256 → n ≠ 0 →
      (renderBase 10 1 n).head? ≠ some '0') := by
  refine ⟨?_, rfl, rfl, by rfl, rfl, rfl, rfl, by rfl,
    fun n h => u256_rt h, fun n => rfl, rfl, ?_⟩
  · intro j
    constructor
    · intro hs
      rcases j with _ | b | t | s | xs | fs
      all_goals try simp [u256Deserialize] at hs
      refine ⟨s, rfl, ?_⟩
      revert hs
      show (u256FromDecStr s).isSome = true → _
      unfold u256FromDecStr
      rcases hp : parseBase 10 s.data with _ | n
      · intro hs; cases hs
      · intro hs
        obtain ⟨hne, hdig, hval⟩ := parseBase_eq_some hp
        by_cases hb : n < 2 ^ 256
        · exact ⟨hne, fun ch hch =>
            (digVal10_isSome_iff ch).mp (hdig ch hch), hval ▸ hb⟩
        · have hs2 : (if n < 2 ^ 256 then some n else none).isSome
              = true := hs
          rw [if_neg hb] at hs2
          cases hs2
    · rintro ⟨s, rfl, hne, hdig, hval⟩
      show (u256FromDecStr s).isSome = true
      unfold u256FromDecStr
      rw [parseBase_of_parts hne
        (fun c hc => (digVal10_isSome_iff c).mpr (hdig c hc))]
      show (if valBase 10 s.data < 2 ^ 256
        then some (valBase 10 s.data) else none).isSome = true
      rw [if_pos hval]
      rfl
  · intro n hn hne
    have h600 : n < 10 ^ 600 := lt_pow10_of_lt_pow2 (by omega) hn
    have hd : natDigitsF 10 n = Nat.digits 10 n := natDigitsF_eq (by omega) h600
    have hnil : Nat.digits 10 n ≠ [] :=
      Nat.digits_ne_nil_iff_ne_zero.mpr hne
    have hlen : 1 ≤ (Nat.digits 10 n).length :=
      List.length_pos.mpr hnil
    have hpad : digitsPadded 10 1 n = Nat.digits 10 n := by
      show natDigitsF 10 n
        ++ List.replicate (1 - (natDigitsF 10 n).length) 0 = _
      rw [hd, show 1 - (Nat.digits 10 n).length = 0 from by omega,
        List.replicate_zero, List.append_nil]
    unfold renderBase
    rw [hpad, List.head?_map, List.head?_reverse,
      List.getLast?_eq_getLast_of_ne_nil hnil]
    intro hcon
    have hcon2 : digitChar ((Nat.digits 10 n).getLast hnil) = '0' :=
      Option.some.inj hcon
    have hlast := Nat.getLast_digit_ne_zero 10 hne
    have hlt : (Nat.digits 10 n).getLast hnil < 10 :=
      Nat.digits_lt_base (by omega)
        (List.getLast_mem hnil)
    exact hlast (digitChar_eq_zero_char (by omega) hcon2)

theorem c3_u256_codec_witness :
    ((2 ^ 256 - 1 : Nat) < 2 ^ 256) ∧
    u256Deserialize (u256Serialize (2 ^ 256 - 1))
      = some (2 ^ 256 - 1) ∧
    u256Deserialize (u256Serialize 0) = some 0 ∧
    u256Deserialize (u256Serialize 1) = some 1 ∧
    ((7 : Nat) ≠ 0 ∧ (renderBase 10 1 7).head? ≠ some '0') :=
  ⟨by decide,
    c3_u256_codec.2.2.2.2.2.2.2.2.1 (2 ^ 256 - 1) (by decide),
    c3_u256_codec.2.2.2.2.2.2.2.2.1 0 (by decide),
    c3_u256_codec.2.2.2.2.2.2.2.2.1 1 (by decide),
    by decide,
    c3_u256_codec.2.2.2.2.2.2.2.2.2.2.2 7 (by decide) (by decide)⟩

theorem digitChar_mem_hex {d : Nat} (hd : d < 16) :
    digitChar d ∈ ("0123456789abcdef" : String).data := by
  interval_cases d <;> decide

/-- Claim C8: the wrapped-address codec decodes
`{ "address": "0x" + 40 hex digits }` to the 20-byte value, failing on
any other digit count; the optional variant accepts `null` (and an
absent field) as `none`; encoding re-wraps the value as an object whose
`address` string is `0x` plus exactly 40 lowercase hex digits. -/
theorem c8_wrapped_address_codec :
    (∀ h : String, (addressSerdeHex h).isSome = true ↔
      ∃ l : List Char, h.data = '0' :: 'x' :: l ∧ l.length = 40 ∧
        ∀ c ∈ l, (digVal 16 c).isSome) ∧
    (∀ l : List Char, (∀ c ∈ l, (digVal 16 c).isSome) →
      l.length = 40 →
      address_fromjson
        (.obj [("address", .str (String.mk ('0' :: 'x' :: l)))])
        = some (valBase 16 l)) ∧
    address_fromjson_opt .null = some none ∧
    (∀ (fs : List (String × Json)) (k : String), jLookup fs k = none →
      optAddrField fs k = some none) ∧
    (∀ a : Nat, a < 2 ^ 160 →
      address_tojson a = .obj [("address", .str (renderAddress a))] ∧
      (renderAddress a).data = '0' :: 'x' :: renderBase 16 40 a ∧
      (renderBase 16 40 a).length = 40 ∧
      ∀ c ∈ renderBase 16 40 a,
        c ∈ ("0123456789abcdef" : String).data) := by
  refine ⟨?_, ?_, rfl, ?_, ?_⟩
  · intro h
    constructor
    · intro hs
      unfold addressSerdeHex at hs
      split at hs
      case h_2 => cases hs
      case h_1 rest heq =>
        split at hs
        case isFalse => cases hs
        case isTrue hlen =>
          obtain ⟨n, hn⟩ := Option.isSome_iff_exists.mp hs
          obtain ⟨-, hdig, -⟩ := parseBase_eq_some hn
          exact ⟨rest, heq, hlen, hdig⟩
    · rintro ⟨l, hdata, hlen, hdig⟩
      unfold addressSerdeHex
      rw [hdata]
      show (if l.length = 40 then parseBase 16 l else none).isSome = true
      rw [if_pos hlen, parseBase_of_parts
        (by intro e; rw [e] at hlen; cases hlen) hdig]
      rfl
  · intro l hdig hlen
    show (match jLookup [("address",
        .str (String.mk ('0' :: 'x' :: l)))] "address" with
      | some (.str s) => addressSerdeHex s
      | _ => none) = some (valBase 16 l)
    simp only [jLookup, reduceIte]
    show (if l.length = 40 then parseBase 16 l else none)
      = some (valBase 16 l)
    rw [if_pos hlen, parseBase_of_parts
      (by intro e; rw [e] at hlen; cases hlen) hdig]
  · intro fs k h
    unfold optAddrField
    rw [h]
  · intro a ha
    have h16 : a < 16 ^ 40 := by rw [pow16_pow2]; exact ha
    refine ⟨rfl, rfl, renderBase_length 16 40 a (by omega) h16 (by omega),
      ?_⟩
    intro c hc
    unfold renderBase at hc
    rcases List.mem_map.mp hc with ⟨d, hd, rfl⟩
    exact digitChar_mem_hex
      (digitsPadded_lt 16 40 a (by omega) d (List.mem_reverse.mp hd))

theorem c8_wrapped_address_codec_witness :
    (addressSerdeHex
      "0x00000000000000000000000000000000000000ab").isSome = true ∧
    address_fromjson (.obj [("address", .str (String.mk
        ('0' :: 'x' :: (List.replicate 38 '0' ++ ['a', 'b']))))])
      = some (valBase 16 (List.replicate 38 '0' ++ ['a', 'b'])) ∧
    optAddrField [] "taker" = some none ∧
    (renderBase 16 40 171).length = 40 :=
  ⟨(c8_wrapped_address_codec.1
      "0x00000000000000000000000000000000000000ab").mpr
      ⟨(List.replicate 38 '0' ++ ['a', 'b']), by decide, by decide,
        by decide⟩,
    c8_wrapped_address_codec.2.1 (List.replicate 38 '0' ++ ['a', 'b'])
      (by decide) (by decide),
    c8_wrapped_address_codec.2.2.2.1 [] "taker" rfl,
    ((c8_wrapped_address_codec.2.2.2.2 171 (by decide)).2.2).1⟩

theorem stringMk_data (s : String) : String.mk s.data = s := rfl

/-- Claim C2: the `NftId` wire string decodes by splitting on at most the
first two `/` separators (the token-id segment is the remainder), and
succeeds exactly when the three segments are a recognized chain wire
name, a valid hex address and a decimal token id below `2 ^ 256`; the
chain names are the seven lowercase wire names with `"matic"` for
Polygon; encoding produces `<chain>/<address>/<token-id>` with the
canonical lowercase wire name. -/
theorem c2_nftid_codec :
    (∀ (s : String) (n : NftId), NftId.fromWire s = some n ↔
      ∃ c a i : String,
        s = c ++ "/" ++ a ++ "/" ++ i ∧ '/' ∉ c.data ∧ '/' ∉ a.data ∧
        Chain.fromStr c = some n.network ∧
        addressFromStr a = some n.address ∧
        u256FromDecStr i = some n.id) ∧
    (∀ c : String, (Chain.fromStr c).isSome = true ↔
      c ∈ (["ethereum", "matic", "klaytn", "solana", "rinkeby",
        "mumbai", "baobab"] : List String)) ∧
    Chain.fromStr "matic" = some .Polygon ∧
    Chain.Polygon.wireName = "matic" ∧
    (∀ n : NftId, NftId.toWire n
      = n.network.wireName ++ "/" ++ renderAddress n.address ++ "/"
        ++ String.mk (renderBase 10 1 n.id)) := by
  refine ⟨?_, ?_, rfl, rfl, fun n => rfl⟩
  · intro s n
    constructor
    · intro hdec
      unfold NftId.fromWire at hdec
      rcases hb1 : breakAt '/' s.data with ⟨p1, o1⟩
      rw [hb1] at hdec
      simp only [Option.bind_eq_bind, Option.bind_eq_some] at hdec
      obtain ⟨net, hnet, r1, hr1, hdec⟩ := hdec
      rcases hb2 : breakAt '/' r1 with ⟨p2, o2⟩
      rw [hb2] at hdec
      simp only [Option.bind_eq_some] at hdec
      obtain ⟨addr, haddr, r2, hr2, id, hid, hfin⟩ := hdec
      subst hr1
      subst hr2
      obtain ⟨hs1, hnp1⟩ := breakAt_eq_some hb1
      obtain ⟨hs2, hnp2⟩ := breakAt_eq_some hb2
      cases Option.some.inj hfin
      refine ⟨String.mk p1, String.mk p2, String.mk r2, ?_, hnp1, hnp2,
        hnet, haddr, hid⟩
      apply String.ext
      simp only [String.data_append]
      rw [hs1, hs2]
      show p1 ++ '/' :: (p2 ++ '/' :: r2)
        = p1 ++ ['/'] ++ p2 ++ ['/'] ++ r2
      simp
    · rintro ⟨c, a, i, rfl, hc, ha, hnet, haddr, hid⟩
      have hdata : (c ++ "/" ++ a ++ "/" ++ i).data
          = c.data ++ '/' :: (a.data ++ '/' :: i.data) := by
        simp [String.data_append]
      unfold NftId.fromWire
      rw [hdata, breakAt_append hc]
      simp only [stringMk_data, hnet, Option.bind_eq_bind,
        Option.some_bind, breakAt_append ha, haddr, hid]
      rfl
  · intro c
    constructor
    · intro h
      unfold Chain.fromStr at h
      split_ifs at h with h1 h2 h3 h4 h5 h6 h7
      · simp [h1]
      · simp [h2]
      · simp [h3]
      · simp [h4]
      · simp [h5]
      · simp [h6]
      · simp [h7]
      · cases h
    · intro h
      simp only [List.mem_cons, List.not_mem_nil, or_false] at h
      rcases h with rfl | rfl | rfl | rfl | rfl | rfl | rfl <;> rfl

theorem c2_nftid_codec_witness :
    NftId.fromWire
      "ethereum/0x00000000000000000000000000000000000000ab/123456789012345678901234567890"
      = some ⟨.Ethereum, 171, 123456789012345678901234567890⟩ :=
  (c2_nftid_codec.1 _ _).mpr
    ⟨"ethereum", "0x00000000000000000000000000000000000000ab",
      "123456789012345678901234567890", by decide, by decide, by decide,
      rfl, by rfl, by rfl⟩

/-! ## Concrete sample data for the witnesses -/

def exAddrHex : String := "0x00000000000000000000000000000000000000ab"

def exDate : String := "2022-01-01T00:00:00Z"

def exDate2 : String := "2022-02-01T00:00:00Z"

def exUrl : String := "https://opensea.io/assets/x"

def exContextFields : List (String × Json) :=
  [("collection", .obj [("slug", .str "wandernauts")]),
   ("item", .obj [
     ("nft_id",
       .str "ethereum/0x00000000000000000000000000000000000000ab/1"),
     ("permalink", .str exUrl),
     ("chain", .obj [("name", .str "ethereum")]),
     ("metadata", .obj [])])]

def exPTJson : Json := .obj [
  ("address", .str exAddrHex), ("decimals", .num "18"),
  ("eth_price", .str "1"), ("name", .str "Ether"),
  ("symbol", .str "ETH"), ("usd_price", .str "2")]

def exItem : Item :=
  ⟨⟨.Ethereum, 171, 1⟩, exUrl, .Ethereum, ⟨none, none, none, none, none⟩⟩

def exCtx : Context := ⟨⟨"wandernauts"⟩, exItem⟩

def exPT : PaymentToken :=
  ⟨171, 18, ((1 : Nat) : Rat), "Ether", "ETH", ((2 : Nat) : Rat)⟩

def exTransactionJson : Json := .obj [
  ("hash", .str ("0x" ++ String.mk (List.replicate 64 'a'))),
  ("timestamp", .str exDate)]

def exListedNoTakerPfs : List (String × Json) :=
  exContextFields ++
  [("event_timestamp", .str exDate),
   ("base_price", .str "1000000000000000000"),
   ("expiration_date", .str exDate2),
   ("is_private", .bool false),
   ("listing_date", .str exDate),
   ("listing_type", .null),
   ("maker", .obj [("address", .str exAddrHex)]),
   ("payment_token", exPTJson),
   ("quantity", .num "1")]

def exListedNoTaker : ItemListedData :=
  ⟨exCtx, exDate, 10 ^ 18, exDate2, false, exDate, none, 171, exPT, 1,
    none⟩

/-- The same listed payload with both optional keys (`listing_type` and
`taker`) absent entirely. -/
def exListedBarePfs : List (String × Json) :=
  exContextFields ++
  [("event_timestamp", .str exDate),
   ("base_price", .str "1000000000000000000"),
   ("expiration_date", .str exDate2),
   ("is_private", .bool false),
   ("listing_date", .str exDate),
   ("maker", .obj [("address", .str exAddrHex)]),
   ("payment_token", exPTJson),
   ("quantity", .num "1")]

def exOfferNoTakerPfs : List (String × Json) :=
  exContextFields ++
  [("event_timestamp", .str exDate),
   ("base_price", .str "1"),
   ("created_date", .str exDate),
   ("expiration_date", .str exDate2),
   ("maker", .obj [("address", .str exAddrHex)]),
   ("payment_token", exPTJson),
   ("quantity", .num "1")]

def exOfferNoTaker : ItemReceivedOfferData :=
  ⟨exCtx, exDate, 1, exDate, exDate2, 171, exPT, 1, none⟩

def exBidNoTakerPfs : List (String × Json) := exOfferNoTakerPfs

def exBidNoTaker : ItemReceivedBidData :=
  ⟨exCtx, exDate, 1, exDate, exDate2, 171, exPT, 1, none⟩

def exSoldNoTakerPfs : List (String × Json) :=
  exContextFields ++
  [("event_timestamp", .str exDate),
   ("closing_date", .str exDate),
   ("is_private", .bool false),
   ("listing_type", .null),
   ("maker", .obj [("address", .str exAddrHex)]),
   ("payment_token", exPTJson),
   ("quantity", .num "1"),
   ("sale_price", .str "1"),
   ("transaction", exTransactionJson)]

def exSoldNoTakerDoc : Json := .obj [
  ("sent_at", .str exDate),
  ("event_type", .str "item_sold"),
  ("payload", .obj exSoldNoTakerPfs)]

theorem c5_taker_requiredness_witness :
    StreamEvent.fromJson exSoldNoTakerDoc = none ∧
    exListedNoTaker.taker = none ∧
    exOfferNoTaker.taker = none ∧
    exBidNoTaker.taker = none :=
  ⟨c5_taker_requiredness.1
      [("sent_at", .str exDate), ("event_type", .str "item_sold"),
        ("payload", .obj exSoldNoTakerPfs)]
      exSoldNoTakerPfs rfl rfl (by rfl),
    c5_taker_requiredness.2.1 exListedNoTakerPfs (by rfl)
      exListedNoTaker (by rfl),
    c5_taker_requiredness.2.2.1 exOfferNoTakerPfs (by rfl)
      exOfferNoTaker (by rfl),
    c5_taker_requiredness.2.2.2 exBidNoTakerPfs (by rfl)
      exBidNoTaker (by rfl)⟩

/-- Claim C6: for every event-kind payload with an optional
`listing_type` field, an absent key and an explicit `null` decode to the
same result, and a successful decode yields `none` for `listing_type`
(no default auction variant). -/
theorem c6_listing_type_absent_null :
    ∀ pfs : List (String × Json), jLookup pfs "listing_type" = none →
      (ItemListedData.fromJson
          (.obj (pfs ++ [("listing_type", Json.null)]))
        = ItemListedData.fromJson (.obj pfs) ∧
       ∀ d, ItemListedData.fromJson (.obj pfs) = some d →
         d.listing_type = none) ∧
      (ItemSoldData.fromJson (.obj (pfs ++ [("listing_type", Json.null)]))
        = ItemSoldData.fromJson (.obj pfs) ∧
       ∀ d, ItemSoldData.fromJson (.obj pfs) = some d →
         d.listing_type = none) ∧
      (ItemCancelledData.fromJson
          (.obj (pfs ++ [("listing_type", Json.null)]))
        = ItemCancelledData.fromJson (.obj pfs) ∧
       ∀ d, ItemCancelledData.fromJson (.obj pfs) = some d →
         d.listing_type = none) := by
  intro pfs h
  refine ⟨⟨?_, ?_⟩, ⟨?_, ?_⟩, ⟨?_, ?_⟩⟩
  · simp only [ItemListedData.fromJson, Context.fromFields, reqField,
      optField, optAddrField, jLookup_append_miss, jLookup_append_hit _ h,
      String.reduceEq, not_false_eq_true, h, decOptVal]
  · intro d hd
    unfold ItemListedData.fromJson at hd
    simp only [Option.bind_eq_bind, Option.bind_eq_some] at hd
    obtain ⟨a1, -, a2, -, a3, -, a4, -, a5, -, a6, -, a7, h7, a8, -,
      a9, -, a10, -, a11, -, hp⟩ := hd
    rw [optField, h] at h7
    cases Option.some.inj hp
    exact (Option.some.inj h7).symm
  · simp only [ItemSoldData.fromJson, Context.fromFields, reqField,
      optField, optAddrField, jLookup_append_miss, jLookup_append_hit _ h,
      String.reduceEq, not_false_eq_true, h, decOptVal]
  · intro d hd
    unfold ItemSoldData.fromJson at hd
    simp only [Option.bind_eq_bind, Option.bind_eq_some] at hd
    obtain ⟨a1, -, a2, -, a3, -, a4, -, a5, h5, a6, -, a7, -, a8, -,
      a9, -, a10, -, a11, -, hp⟩ := hd
    rw [optField, h] at h5
    cases Option.some.inj hp
    exact (Option.some.inj h5).symm
  · simp only [ItemCancelledData.fromJson, Context.fromFields, reqField,
      optField, optAddrField, jLookup_append_miss, jLookup_append_hit _ h,
      String.reduceEq, not_false_eq_true, h, decOptVal]
  · intro d hd
    unfold ItemCancelledData.fromJson at hd
    simp only [Option.bind_eq_bind, Option.bind_eq_some] at hd
    obtain ⟨a1, -, a2, -, a3, h3, a4, -, a5, -, a6, -, hp⟩ := hd
    rw [optField, h] at h3
    cases Option.some.inj hp
    exact (Option.some.inj h3).symm

theorem c6_listing_type_absent_null_witness :
    jLookup exListedBarePfs "listing_type" = none ∧
    ItemListedData.fromJson
        (.obj (exListedBarePfs ++ [("listing_type", Json.null)]))
      = ItemListedData.fromJson (.obj exListedBarePfs) ∧
    ItemListedData.fromJson (.obj exListedBarePfs)
      = some exListedNoTaker ∧
    exListedNoTaker.listing_type = none :=
  ⟨by rfl,
    (c6_listing_type_absent_null exListedBarePfs (by rfl)).1.1,
    by rfl,
    (c6_listing_type_absent_null exListedBarePfs (by rfl)).1.2
      exListedNoTaker (by rfl)⟩

/-- A well-formed wire document of an `item_metadata_updated` event whose
optional metadata fields are absent.  It decodes, but the re-encoded
document carries those fields as explicit `null`s, so it is not equal to
the original even up to field ordering. -/
def cexDoc : Json := .obj [
  ("sent_at", .str exDate),
  ("event_type", .str "item_metadata_updated"),
  ("payload", .obj (exContextFields ++ [("traits", .arr [])]))]

/-- Claim C1, counterexample: `cexDoc` is a well-formed wire document
(it decodes), yet encoding the decoded event does not reproduce it even
up to field ordering, because absent optional fields come back as
explicit `null`s. -/
theorem c1_roundtrip_counterexample :
    (StreamEvent.fromJson cexDoc).isSome = true ∧
    (StreamEvent.fromJson cexDoc).map
        (fun ev => jsonEqUpToOrder (StreamEvent.toJson ev) cexDoc)
      = some false :=
  ⟨rfl, rfl⟩

/-- The payment token used by the witness events: exact small integer
prices. -/
theorem wf_exPT : wfPaymentToken exPT = true := by
  unfold wfPaymentToken
  simp only [Bool.and_eq_true]
  refine ⟨⟨⟨by decide, by decide⟩, ?_⟩, ?_⟩
  · exact wfF64_natCast 1 (by decide)
  · exact wfF64_natCast 2 (by decide)

def evListed : StreamEvent :=
  ⟨exDate, .ItemListed ⟨exCtx, exDate, 10 ^ 18, exDate2, false, exDate,
    some .English, 171, exPT, 1, some 171⟩⟩

def evSold : StreamEvent :=
  ⟨exDate, .ItemSold ⟨exCtx, exDate, exDate, false, some .Dutch, 171,
    exPT, 1, 1, 171, ⟨0, exDate⟩⟩⟩

def evTransferred : StreamEvent :=
  ⟨exDate, .ItemTransferred ⟨exCtx, exDate, ⟨0, exDate⟩, 171, 171, 1⟩⟩

def evMetadataUpdated : StreamEvent :=
  ⟨exDate, .ItemMetadataUpdated ⟨exCtx, some "x", none, none, none,
    none, none, [.null]⟩⟩

def evCancelled : StreamEvent :=
  ⟨exDate, .ItemCancelled ⟨exCtx, exDate, none, exPT, 1, ⟨0, exDate⟩⟩⟩

def evOffer : StreamEvent :=
  ⟨exDate, .ItemReceivedOffer ⟨exCtx, exDate, 1, exDate, exDate2, 171,
    exPT, 1, none⟩⟩

def evBid : StreamEvent :=
  ⟨exDate, .ItemReceivedBid ⟨exCtx, exDate, 1, exDate, exDate2, 171,
    exPT, 1, some 171⟩⟩

theorem wf_evListed : wfStreamEvent evListed = true := by
  simp only [wfStreamEvent, wfPayload, wfItemListedData, evListed,
    Bool.and_eq_true]
  repeat' apply And.intro
  all_goals first
    | decide
    | exact wf_exPT

theorem wf_evSold : wfStreamEvent evSold = true := by
  simp only [wfStreamEvent, wfPayload, wfItemSoldData, wfTransaction,
    evSold, Bool.and_eq_true]
  repeat' apply And.intro
  all_goals first
    | decide
    | exact wf_exPT

theorem wf_evTransferred : wfStreamEvent evTransferred = true := by
  simp only [wfStreamEvent, wfPayload, wfItemTransferredData,
    wfTransaction, evTransferred, Bool.and_eq_true]
  repeat' apply And.intro
  all_goals decide

theorem wf_evMetadataUpdated : wfStreamEvent evMetadataUpdated = true := by
  simp only [wfStreamEvent, wfPayload, wfItemMetadataUpdatedData,
    evMetadataUpdated, Bool.and_eq_true]
  repeat' apply And.intro
  all_goals decide

theorem wf_evCancelled : wfStreamEvent evCancelled = true := by
  simp only [wfStreamEvent, wfPayload, wfItemCancelledData,
    wfTransaction, evCancelled, Bool.and_eq_true]
  repeat' apply And.intro
  all_goals first
    | decide
    | exact wf_exPT

theorem wf_evOffer : wfStreamEvent evOffer = true := by
  simp only [wfStreamEvent, wfPayload, wfItemReceivedOfferData, evOffer,
    Bool.and_eq_true]
  repeat' apply And.intro
  all_goals first
    | decide
    | exact wf_exPT

theorem wf_evBid : wfStreamEvent evBid = true := by
  simp only [wfStreamEvent, wfPayload, wfItemReceivedBidData, evBid,
    Bool.and_eq_true]
  repeat' apply And.intro
  all_goals first
    | decide
    | exact wf_exPT

/-- Claim C1 (amended): decoding the encoding of every well-formed
`StreamEvent` yields the event back, and for every wire document that is
itself the encoding of a well-formed event — the canonical form, with
optional fields explicitly `null`, no leading zeros, lowercase hex —
encoding the decoded event reproduces the document exactly.  (As stated
over all well-formed wire documents the second direction is false: see
the counterexample, a decodable document with an absent optional
field.) -/
theorem c1_roundtrip_amended :
    ∀ ev : StreamEvent, wfStreamEvent ev = true →
      StreamEvent.fromJson (StreamEvent.toJson ev) = some ev ∧
      ∀ j : Json, j = StreamEvent.toJson ev →
        (StreamEvent.fromJson j).map StreamEvent.toJson = some j := by
  intro ev h
  refine ⟨streamEvent_rt h, ?_⟩
  rintro j rfl
  rw [streamEvent_rt h]
  rfl

theorem c1_roundtrip_amended_witness :
    (wfStreamEvent evListed = true ∧
      StreamEvent.fromJson (StreamEvent.toJson evListed)
        = some evListed) ∧
    (wfStreamEvent evSold = true ∧
      StreamEvent.fromJson (StreamEvent.toJson evSold) = some evSold) ∧
    (wfStreamEvent evTransferred = true ∧
      StreamEvent.fromJson (StreamEvent.toJson evTransferred)
        = some evTransferred) ∧
    (wfStreamEvent evMetadataUpdated = true ∧
      StreamEvent.fromJson (StreamEvent.toJson evMetadataUpdated)
        = some evMetadataUpdated) ∧
    (wfStreamEvent evCancelled = true ∧
      StreamEvent.fromJson (StreamEvent.toJson evCancelled)
        = some evCancelled) ∧
    (wfStreamEvent evOffer = true ∧
      StreamEvent.fromJson (StreamEvent.toJson evOffer) = some evOffer) ∧
    (wfStreamEvent evBid = true ∧
      StreamEvent.fromJson (StreamEvent.toJson evBid) = some evBid) ∧
    (StreamEvent.fromJson (StreamEvent.toJson evListed)).map
        StreamEvent.toJson = some (StreamEvent.toJson evListed) :=
  ⟨⟨wf_evListed, (c1_roundtrip_amended evListed wf_evListed).1⟩,
    ⟨wf_evSold, (c1_roundtrip_amended evSold wf_evSold).1⟩,
    ⟨wf_evTransferred,
      (c1_roundtrip_amended evTransferred wf_evTransferred).1⟩,
    ⟨wf_evMetadataUpdated,
      (c1_roundtrip_amended evMetadataUpdated wf_evMetadataUpdated).1⟩,
    ⟨wf_evCancelled,
      (c1_roundtrip_amended evCancelled wf_evCancelled).1⟩,
    ⟨wf_evOffer, (c1_roundtrip_amended evOffer wf_evOffer).1⟩,
    ⟨wf_evBid, (c1_roundtrip_amended evBid wf_evBid).1⟩,
    (c1_roundtrip_amended evListed wf_evListed).2 _ rfl⟩

theorem c4_unknown_event_type_witness :
    jLookup [("event_type", Json.str "order_invalidated")] "event_type"
      = some (.str "order_invalidated") ∧
    ("order_invalidated" : String) ∉ (["item_listed", "item_sold",
      "item_transferred", "item_metadata_updated", "item_cancelled",
      "item_received_offer", "item_received_bid"] : List String) ∧
    StreamEvent.fromJson
      (.obj [("event_type", Json.str "order_invalidated")]) = none :=
  ⟨rfl, by decide,
    c4_unknown_event_type [("event_type", Json.str "order_invalidated")]
      "order_invalidated" rfl (by decide)⟩

end OpenseaStream
